import Mathlib

/-!
Verification of the guessing-game session server (src/server.js).

The server is embedded shallowly: the global mutable state (the `sessions`
table, the pending `setTimeout` timers, socket.io rooms, and the
`socket.sessionId` / `socket.playerName` attributes) becomes an explicit
`ServerState` record, and every socket.io handler becomes a pure function
`ServerState → args → ServerState × List Emit`, where `Emit` records one
`socket.emit` / `io.to(room).emit` call together with the recipients that
were in the room at the moment of emission.  JavaScript `Map`s (insertion
ordered) become association lists; `setTimeout` handles become numeric
timer ids drawn from a monotone counter, with the set of armed, not yet
cancelled timers kept in `pending`.
-/

namespace GuessGame

/-- A session member, as stored in `session.players` (server.js line 220). -/
structure Player where
  id : String
  name : String
  score : Nat
  attemptsLeft : Nat
deriving Repr, DecidableEq

/-- One session of the in-memory `sessions` store (server.js lines 16-31). -/
structure Session where
  id : String
  players : List Player
  gm : String
  question : Option String
  answer : Option String
  answerOriginal : Option String
  inProgress : Bool
  timer : Option Nat
  winner : Option String
deriving Repr, DecidableEq

/-- One entry of the player array sent by `broadcastSessionState`. -/
structure PlayerView where
  id : String
  name : String
  score : Nat
  attemptsLeft : Nat
  isGM : Bool
deriving Repr, DecidableEq

/-- The `session_state` payload produced by `broadcastSessionState`. -/
structure SessionView where
  sessionId : String
  players : List PlayerView
  gm : String
  inProgress : Bool
  question : Option String
  winner : Option String
deriving Repr, DecidableEq

/-- The payloads the server emits. -/
inductive Payload where
  | systemMessage : String → Payload
  | errorMessage : String → Payload
  | sessionState : SessionView → Payload
  | sessionCreated : String → String → Payload
  | leftSession : String → Payload
  | gameStarted : Option String → Nat → Payload
  | gameEnded : String → Option (String × Option String) → Option String → Payload
deriving Repr, DecidableEq

/-- One emission: the payload together with the sockets that receive it
(`socket.emit` targets one socket, `io.to(room).emit` targets the sockets
that are in the room when the emit happens). -/
structure Emit where
  recipients : List String
  payload : Payload
deriving Repr, DecidableEq

/-- Association-list lookup (JS object / Map read). -/
def alookup {β : Type} (l : List (String × β)) (k : String) : Option β :=
  (l.find? (fun e => e.1 = k)).map (fun e => e.2)

/-- Association-list write for a key that may or may not be present
(JS `obj[k] = v` / `Map.set`): replaces in place, else appends. -/
def aset {β : Type} (l : List (String × β)) (k : String) (v : β) : List (String × β) :=
  if l.any (fun e => e.1 = k) then l.map (fun e => if e.1 = k then (k, v) else e)
  else l ++ [(k, v)]

/-- Association-list in-place update, a no-op when the key is absent:
this is the write-back of a mutation of an object obtained by lookup. -/
def aupdate {β : Type} (l : List (String × β)) (k : String) (v : β) : List (String × β) :=
  l.map (fun e => if e.1 = k then (k, v) else e)

/-- Association-list deletion (JS `delete obj[k]` / `Map.delete`). -/
def adelete {β : Type} (l : List (String × β)) (k : String) : List (String × β) :=
  l.filter (fun e => e.1 ≠ k)

/-- `session.players.get(k)` — the players map is keyed by `player.id`. -/
def pget (ps : List Player) (k : String) : Option Player :=
  ps.find? (fun p => p.id = k)

/-- `session.players.set(p.id, p)`: replaces in place (keeping the original
insertion position, as a JS `Map` does), else appends. -/
def pset (ps : List Player) (p : Player) : List Player :=
  if ps.any (fun q => q.id = p.id) then ps.map (fun q => if q.id = p.id then p else q)
  else ps ++ [p]

/-- `session.players.delete(k)`. -/
def pdelete (ps : List Player) (k : String) : List Player :=
  ps.filter (fun p => p.id ≠ k)

/-- The whole mutable state of the server process. -/
structure ServerState where
  sessions : List (String × Session)
  pending : List (Nat × String)
  nextTimer : Nat
  rooms : List (String × List String)
  sockSession : List (String × String)
  sockName : List (String × String)
deriving Repr, DecidableEq

/-- The state at process start: no sessions, no timers, no rooms. -/
def initState : ServerState := ⟨[], [], 0, [], [], []⟩

def lookupSession (st : ServerState) (sid : String) : Option Session :=
  alookup st.sessions sid

/-- Write back a mutated session object under its id. -/
def writeSession (st : ServerState) (sid : String) (s : Session) : ServerState :=
  { st with sessions := aupdate st.sessions sid s }

/-- `sessions[sessionId] = session` for a fresh id. -/
def insertSession (st : ServerState) (sid : String) (s : Session) : ServerState :=
  { st with sessions := st.sessions ++ [(sid, s)] }

/-- `delete sessions[sessionId]`. -/
def removeSession (st : ServerState) (sid : String) : ServerState :=
  { st with sessions := adelete st.sessions sid }

/-- `clearTimeout(t)`: the timer can no longer fire. -/
def clearPending (st : ServerState) (t : Nat) : ServerState :=
  { st with pending := st.pending.filter (fun e => e.1 ≠ t) }

/-- The sockets currently in room `sid`. -/
def roomMembers (st : ServerState) (sid : String) : List String :=
  (alookup st.rooms sid).getD []

/-- `socket.join(sid)`: a no-op when the socket is already in the room. -/
def roomJoin (st : ServerState) (sid sock : String) : ServerState :=
  let ms := roomMembers st sid
  if sock ∈ ms then st
  else { st with rooms := aset st.rooms sid (ms ++ [sock]) }

/-- `socket.leave(sid)`. -/
def roomLeave (st : ServerState) (sid sock : String) : ServerState :=
  { st with rooms := aupdate st.rooms sid ((roomMembers st sid).filter (fun x => x ≠ sock)) }

/-- `delete socket.sessionId; delete socket.playerName;`. -/
def clearSockAttrs (st : ServerState) (sock : String) : ServerState :=
  { st with sockSession := adelete st.sockSession sock,
            sockName := adelete st.sockName sock }

/-- The whitespace characters relevant to JS `String.prototype.trim`. -/
def jsWhitespace (c : Char) : Bool :=
  c = ' ' ∨ c = '\t' ∨ c = '\n' ∨ c = '\r'

/-- JS `trim()`: strip leading and trailing whitespace. -/
def jsTrim (s : String) : String :=
  ⟨((s.data.dropWhile jsWhitespace).reverse.dropWhile jsWhitespace).reverse⟩

/-- ASCII case-fold of one character (JS `toLowerCase` restricted to the
ASCII letters, which is all the server's comparisons rely on). -/
def jsCharLower (c : Char) : Char :=
  if c = 'A' then 'a' else if c = 'B' then 'b' else if c = 'C' then 'c'
  else if c = 'D' then 'd' else if c = 'E' then 'e' else if c = 'F' then 'f'
  else if c = 'G' then 'g' else if c = 'H' then 'h' else if c = 'I' then 'i'
  else if c = 'J' then 'j' else if c = 'K' then 'k' else if c = 'L' then 'l'
  else if c = 'M' then 'm' else if c = 'N' then 'n' else if c = 'O' then 'o'
  else if c = 'P' then 'p' else if c = 'Q' then 'q' else if c = 'R' then 'r'
  else if c = 'S' then 's' else if c = 'T' then 't' else if c = 'U' then 'u'
  else if c = 'V' then 'v' else if c = 'W' then 'w' else if c = 'X' then 'x'
  else if c = 'Y' then 'y' else if c = 'Z' then 'z' else c

/-- JS `toLowerCase()`. -/
def jsToLower (s : String) : String :=
  ⟨s.data.map jsCharLower⟩

/-- JS `slice(0, n)`. -/
def jsTake (n : Nat) (s : String) : String :=
  ⟨s.data.take n⟩

/-- `sanitizeAnswer` (server.js lines 41-45). -/
def sanitizeAnswer (a : String) : String :=
  jsToLower (jsTrim a)

/-- JS truthiness test of an optional string: `null` and `""` are falsy. -/
def jsFalsy (o : Option String) : Bool :=
  o.getD "" = ""

/-- `broadcastSessionState` (server.js lines 47-64): one `session_state`
emission to the room of the session. -/
def broadcastSessionState (st : ServerState) (session : Session) : Emit :=
  ⟨roomMembers st session.id,
   .sessionState
     { sessionId := session.id
       players := session.players.map (fun p =>
         { id := p.id, name := p.name, score := p.score,
           attemptsLeft := p.attemptsLeft, isGM := p.id = session.gm })
       gm := session.gm
       inProgress := session.inProgress
       question := if session.inProgress then session.question else none
       winner := session.winner }⟩

/-- The winner-award of `endGame` (server.js lines 145-151): add the fixed
10 points to the winner's entry, when present. -/
def awardWinner (ps : List Player) (winnerSocketId : Option String) : List Player :=
  match winnerSocketId with
  | some w => ps.map (fun (p : Player) =>
      if p.id = w then { p with score := p.score + 10 } else p)
  | none => ps

/-- The GM rotation of `endGame` (server.js lines 164-174): the id after
the current `gm` in the list (wrapping), the first id when the current
`gm` is not found (`indexOf` returned -1), the old `gm` unchanged when
the list is empty. -/
def rotateGm (playerIds : List String) (gm : String) : String :=
  if playerIds.length > 0 then
    let nextIdx := if gm ∈ playerIds then (playerIds.indexOf gm + 1) % playerIds.length
      else 0
    playerIds.getD nextIdx gm
  else gm

/-- The session mutation performed by `endGame`: stop the round, record
the winner, award the winner, rotate the GM, clear the round fields and
reset every `attemptsLeft` to 0. -/
def endRound (session : Session) (winnerSocketId : Option String) : Session :=
  { session with timer := none, inProgress := false, winner := winnerSocketId,
                 gm := rotateGm ((awardWinner session.players winnerSocketId).map Player.id)
                         session.gm,
                 question := none, answer := none, answerOriginal := none,
                 players := (awardWinner session.players winnerSocketId).map
                   (fun (p : Player) => { p with attemptsLeft := 0 }) }

/-- `endGame` (server.js lines 134-187). -/
def endGame (st : ServerState) (sessionId : String) (reason : String)
    (winnerSocketId : Option String) : ServerState × List Emit :=
  match lookupSession st sessionId with
  | none => (st, [])
  | some session =>
    let st1 := match session.timer with
      | some t => clearPending st t
      | none => st
    let psAwarded := awardWinner session.players winnerSocketId
    let revealedAnswer := match session.answerOriginal with
      | some a => some a
      | none => session.answer
    let winnerField := winnerSocketId.map (fun w => (w, (pget psAwarded w).map Player.name))
    let e1 : Emit := ⟨roomMembers st1 sessionId, .gameEnded reason winnerField revealedAnswer⟩
    let s4 := endRound session winnerSocketId
    let st2 := writeSession st1 sessionId s4
    (st2, [e1, broadcastSessionState st2 s4])

/-- The part of the two departure paths that the source duplicates
verbatim (server.js lines 107-131 and 458-485): it receives the state
`st3` in which the player is already deleted, the room already left and
the socket attributes already cleared, the session `s1` with the player
deleted, and the already-built departure notice `e1`.  It deletes an
emptied session (cancelling its timer), else reassigns the GM when the
leaver was the GM, then forces a round end below 2 players or broadcasts
the updated view. -/
def leaveTail (st3 : ServerState) (sessionId sock : String) (s1 : Session) (e1 : Emit) :
    ServerState × List Emit :=
  if s1.players.isEmpty then
    let st4 := match s1.timer with
      | some t => clearPending st3 t
      | none => st3
    (removeSession st4 sessionId, [e1])
  else
    let out := if sock = s1.gm then
        let firstId := (s1.players.head?.map Player.id).getD ""
        let s2 := { s1 with gm := firstId }
        let nm := ((pget s2.players firstId).map Player.name).getD ""
        (writeSession st3 sessionId s2, s2,
         [(⟨roomMembers st3 sessionId, .systemMessage s!"{nm} is now the Game Master."⟩ : Emit)])
      else (st3, s1, ([] : List Emit))
    let st4 := out.1
    let s2 := out.2.1
    let ems := out.2.2
    if s2.inProgress ∧ s2.players.length < 2 then
      let r := endGame st4 sessionId "stopped_not_enough_players" none
      (r.1, e1 :: ems ++ r.2)
    else
      (st4, e1 :: ems ++ [broadcastSessionState st4 s2])

/-- `leaveSessionByUser` (server.js lines 88-132): the explicit-leave
removal path.  The departure notice is emitted BEFORE the player is
removed from the room, so the departing socket is among its recipients. -/
def leaveSessionByUser (st : ServerState) (sessionId sock : String) :
    ServerState × List Emit :=
  match lookupSession st sessionId with
  | none => (st, [])
  | some session =>
    let playerName := match pget session.players sock with
      | some p => p.name
      | none => (alookup st.sockName sock).getD "A player"
    let e1 : Emit := ⟨roomMembers st sessionId, .systemMessage s!"{playerName} left the session."⟩
    let s1 := { session with players := pdelete session.players sock }
    let st3 := clearSockAttrs (roomLeave (writeSession st sessionId s1) sessionId sock) sock
    leaveTail st3 sessionId sock s1 e1

/-- `leaveSessionOnDisconnect` (server.js lines 444-486): the disconnect
removal path.  The player is removed from the room BEFORE the departure
notice is emitted, so the departing socket does not receive it. -/
def leaveSessionOnDisconnect (st : ServerState) (sock sessionId : String) :
    ServerState × List Emit :=
  match lookupSession st sessionId with
  | none => (st, [])
  | some session =>
    let playerName := match pget session.players sock with
      | some p => p.name
      | none => (alookup st.sockName sock).getD "A player"
    let s1 := { session with players := pdelete session.players sock }
    let st3 := clearSockAttrs (roomLeave (writeSession st sessionId s1) sessionId sock) sock
    let e1 : Emit := ⟨roomMembers st3 sessionId, .systemMessage s!"{playerName} left the session."⟩
    leaveTail st3 sessionId sock s1 e1

/-- The single id candidate used by `create_session` (server.js lines
195-198): the trimmed caller-supplied id when truthy, else the one value
drawn from `makeSessionId()` — there is no retry loop. -/
def resolveCreateId (suppliedId : Option String) (genId : String) : String :=
  match suppliedId with
  | some s => if jsTrim s ≠ "" then jsTrim s else genId
  | none => genId

/-- The `create_session` handler (server.js lines 193-236).  `genId` is
the value the one call of `makeSessionId()` would return. -/
def handleCreateSession (st : ServerState) (sock rawName : String)
    (suppliedId : Option String) (genId : String) : ServerState × List Emit :=
  let name := jsTake 30 (jsTrim (if rawName = "" then "Anonymous" else rawName))
  let sid := resolveCreateId suppliedId genId
  match lookupSession st sid with
  | some _ =>
    (st, [⟨[sock], .errorMessage "Session ID already exists. Try joining it or use another ID."⟩])
  | none =>
    let player : Player := ⟨sock, name, 0, 0⟩
    let session : Session := ⟨sid, [player], sock, none, none, none, false, none, none⟩
    let st1 := roomJoin (insertSession st sid session) sid sock
    let st2 := { st1 with sockSession := aset st1.sockSession sock sid,
                          sockName := aset st1.sockName sock name }
    (st2, [⟨[sock], .sessionCreated sid sock⟩,
           ⟨roomMembers st2 sid, .systemMessage s!"{name} created the session and is the Game Master."⟩,
           broadcastSessionState st2 session])

/-- The `join_session` handler (server.js lines 239-263). -/
def handleJoinSession (st : ServerState) (sock rawSid rawName : String) :
    ServerState × List Emit :=
  let name := jsTake 30 (jsTrim (if rawName = "" then "Anonymous" else rawName))
  let sid := jsTrim rawSid
  match lookupSession st sid with
  | none => (st, [⟨[sock], .errorMessage "Session not found."⟩])
  | some session =>
    if session.inProgress then
      (st, [⟨[sock], .errorMessage "Cannot join — game already in progress."⟩])
    else
      let player : Player := ⟨sock, name, 0, 0⟩
      let s1 := { session with players := pset session.players player }
      let st1 := roomJoin (writeSession st sid s1) sid sock
      let st2 := { st1 with sockSession := aset st1.sockSession sock sid,
                            sockName := aset st1.sockName sock name }
      (st2, [⟨roomMembers st2 sid, .systemMessage s!"{name} joined the session."⟩,
             broadcastSessionState st2 s1])

/-- The `leave_session` handler (server.js lines 265-276).  A socket with
no recorded session gets an `error_message`. -/
def handleLeaveSession (st : ServerState) (sock : String) : ServerState × List Emit :=
  match alookup st.sockSession sock with
  | none => (st, [⟨[sock], .errorMessage "You are not currently in a session."⟩])
  | some sid =>
    let r := leaveSessionByUser st sid sock
    (r.1, r.2 ++ [⟨[sock], .leftSession sid⟩])

/-- The `set_question` handler (server.js lines 278-313). -/
def handleSetQuestion (st : ServerState) (sock rawQ rawA : String) :
    ServerState × List Emit :=
  match alookup st.sockSession sock with
  | none => (st, [⟨[sock], .errorMessage "You are not in a session."⟩])
  | some sid =>
    match lookupSession st sid with
    | none => (st, [])
    | some session =>
      if session.gm ≠ sock then
        (st, [⟨[sock], .errorMessage "Only the Game Master can set the question."⟩])
      else if session.inProgress then
        (st, [⟨[sock], .errorMessage "Cannot set question while a game is in progress."⟩])
      else
        let q := jsTake 500 (jsTrim rawQ)
        let a := jsTake 200 (jsTrim rawA)
        if q = "" ∨ a = "" then
          (st, [⟨[sock], .errorMessage "Question and answer must not be empty."⟩])
        else
          let s1 := { session with question := some q, answerOriginal := some a,
                                   answer := some (sanitizeAnswer a) }
          let st1 := writeSession st sid s1
          (st1, [⟨[sock], .systemMessage "Question set."⟩, broadcastSessionState st1 s1])

/-- The `start_game` handler (server.js lines 315-369): arms the 60 s
expiry timer (a fresh timer id is drawn and recorded as pending). -/
def handleStartGame (st : ServerState) (sock : String) : ServerState × List Emit :=
  match alookup st.sockSession sock with
  | none => (st, [⟨[sock], .errorMessage "You are not in a session."⟩])
  | some sid =>
    match lookupSession st sid with
    | none => (st, [])
    | some session =>
      if session.gm ≠ sock then
        (st, [⟨[sock], .errorMessage "Only the Game Master can start the game."⟩])
      else if session.inProgress then
        (st, [⟨[sock], .errorMessage "Game already in progress."⟩])
      else if session.players.length < 2 then
        (st, [⟨[sock], .errorMessage "You need at least 2 players to start the game."⟩])
      else if jsFalsy session.question ∨ jsFalsy session.answer then
        (st, [⟨[sock], .errorMessage "Set a question and answer before starting."⟩])
      else
        let s1 := { session with
                      players := session.players.map (fun p => { p with attemptsLeft := 3 }),
                      inProgress := true, winner := none, timer := some st.nextTimer }
        let st1 := writeSession st sid s1
        let st2 := { st1 with pending := st1.pending ++ [(st.nextTimer, sid)],
                              nextTimer := st.nextTimer + 1 }
        let gmName := ((pget s1.players s1.gm).map Player.name).getD ""
        (st2, [⟨roomMembers st2 sid, .gameStarted s1.question 60⟩,
               broadcastSessionState st2 s1,
               ⟨roomMembers st2 sid, .systemMessage s!"Game started by {gmName}. Good luck!"⟩])

/-- The guess narration broadcast by the `guess` handler, carrying the
already-decremented attempt count (server.js lines 401-404). -/
def narrationText (nm g : String) (al : Nat) : String :=
  s!"{nm} guessed: \"{g}\" (attempts left: {al})"

/-- The `guess` handler (server.js lines 371-425). -/
def handleGuess (st : ServerState) (sock rawText : String) : ServerState × List Emit :=
  match alookup st.sockSession sock with
  | none => (st, [⟨[sock], .errorMessage "You are not in a session."⟩])
  | some sid =>
    match lookupSession st sid with
    | none => (st, [⟨[sock], .errorMessage "No active game in this session."⟩])
    | some session =>
      if ¬ session.inProgress then
        (st, [⟨[sock], .errorMessage "No active game in this session."⟩])
      else
        match pget session.players sock with
        | none => (st, [⟨[sock], .errorMessage "You are not a player in this session."⟩])
        | some player =>
          if player.attemptsLeft = 0 then
            (st, [⟨[sock], .errorMessage "No attempts left."⟩])
          else
            let g := jsTrim rawText
            if g = "" then
              (st, [⟨[sock], .errorMessage "Guess cannot be empty."⟩])
            else
              let p1 := { player with attemptsLeft := player.attemptsLeft - 1 }
              let s1 := { session with players := pset session.players p1 }
              let st1 := writeSession st sid s1
              let nm := player.name
              let al := p1.attemptsLeft
              let e1 : Emit := ⟨roomMembers st1 sid, .systemMessage (narrationText nm g al)⟩
              let e2 := broadcastSessionState st1 s1
              let normalizedGuess := jsTrim (jsToLower g)
              if s1.answer = some normalizedGuess then
                if s1.winner = none then
                  let s2 := { s1 with winner := some sock }
                  let st2 := writeSession st1 sid s2
                  let r := endGame st2 sid "correct_guess" (some sock)
                  (r.1, e1 :: e2 :: r.2)
                else
                  (st1, [e1, e2])
              else
                if p1.attemptsLeft = 0 then
                  (st1, [e1, e2, ⟨[sock], .systemMessage "You have used all your attempts for this round."⟩])
                else
                  (st1, [e1, e2])

/-- The `get_session_state` handler (server.js lines 427-433). -/
def handleGetSessionState (st : ServerState) (sock : String) : ServerState × List Emit :=
  match alookup st.sockSession sock with
  | none => (st, [])
  | some sid =>
    match lookupSession st sid with
    | none => (st, [])
    | some session => (st, [broadcastSessionState st session])

/-- The `disconnect` handler (server.js lines 435-441): a silent no-op
when the socket has no recorded session. -/
def handleDisconnect (st : ServerState) (sock : String) : ServerState × List Emit :=
  match alookup st.sockSession sock with
  | none => (st, [])
  | some sid => leaveSessionOnDisconnect st sock sid

/-- One serialized event of the server: any inbound intent from any
socket with any arguments, or the firing of a still-pending expiry timer
(whose callback is `endGame(sessionId, "time_expired", null)`). -/
inductive Step : ServerState → ServerState → Prop where
  | createSession (st : ServerState) (sock rawName : String) (suppliedId : Option String)
      (genId : String) : Step st (handleCreateSession st sock rawName suppliedId genId).1
  | joinSession (st : ServerState) (sock rawSid rawName : String) :
      Step st (handleJoinSession st sock rawSid rawName).1
  | leaveSession (st : ServerState) (sock : String) :
      Step st (handleLeaveSession st sock).1
  | setQuestion (st : ServerState) (sock rawQ rawA : String) :
      Step st (handleSetQuestion st sock rawQ rawA).1
  | startGame (st : ServerState) (sock : String) :
      Step st (handleStartGame st sock).1
  | guess (st : ServerState) (sock rawText : String) :
      Step st (handleGuess st sock rawText).1
  | getSessionState (st : ServerState) (sock : String) :
      Step st (handleGetSessionState st sock).1
  | disconnect (st : ServerState) (sock : String) :
      Step st (handleDisconnect st sock).1
  | timerFire (st : ServerState) (t : Nat) (sid : String) (h : (t, sid) ∈ st.pending) :
      Step st (endGame st sid "time_expired" none).1

/-- States reachable from process start by serialized events. -/
inductive Reachable : ServerState → Prop where
  | init : Reachable initState
  | step {s s' : ServerState} : Reachable s → Step s s' → Reachable s'

/-! ### Association-list lemmas -/

theorem alookup_nil {β : Type} (k : String) : alookup ([] : List (String × β)) k = none := rfl

theorem alookup_cons {β : Type} (e : String × β) (l : List (String × β)) (k : String) :
    alookup (e :: l) k = if e.1 = k then some e.2 else alookup l k := by
  by_cases h : e.1 = k
  · simp [alookup, List.find?_cons_of_pos, h]
  · simp [alookup, List.find?_cons_of_neg, h]

theorem aupdate_cons {β : Type} (e : String × β) (l : List (String × β)) (k : String) (v : β) :
    aupdate (e :: l) k v = (if e.1 = k then (k, v) else e) :: aupdate l k v := rfl

theorem adelete_cons {β : Type} (e : String × β) (l : List (String × β)) (k : String) :
    adelete (e :: l) k = if e.1 = k then adelete l k else e :: adelete l k := by
  by_cases h : e.1 = k <;> simp [adelete, List.filter_cons, h]

theorem alookup_aupdate_ne {β : Type} (l : List (String × β)) (k : String) (v : β)
    (k' : String) (h : k' ≠ k) : alookup (aupdate l k v) k' = alookup l k' := by
  have h' : k ≠ k' := Ne.symm h
  induction l with
  | nil => rfl
  | cons e tl ih =>
    rw [aupdate_cons, alookup_cons, alookup_cons]
    by_cases he : e.1 = k
    · rw [if_pos he]
      have : e.1 ≠ k' := he ▸ h'
      simp [h', this, ih]
    · rw [if_neg he, ih]

theorem alookup_aupdate_self {β : Type} (l : List (String × β)) (k : String) (v : β) :
    alookup (aupdate l k v) k = (alookup l k).map (fun _ => v) := by
  induction l with
  | nil => rfl
  | cons e tl ih =>
    rw [aupdate_cons, alookup_cons, alookup_cons]
    by_cases he : e.1 = k
    · simp [he]
    · simp [he, ih]

theorem alookup_adelete_self {β : Type} (l : List (String × β)) (k : String) :
    alookup (adelete l k) k = none := by
  induction l with
  | nil => rfl
  | cons e tl ih =>
    rw [adelete_cons]
    by_cases he : e.1 = k
    · rw [if_pos he]; exact ih
    · rw [if_neg he, alookup_cons, if_neg he]; exact ih

theorem alookup_adelete_ne {β : Type} (l : List (String × β)) (k k' : String)
    (h : k' ≠ k) : alookup (adelete l k) k' = alookup l k' := by
  induction l with
  | nil => rfl
  | cons e tl ih =>
    rw [adelete_cons]
    by_cases he : e.1 = k
    · rw [if_pos he, alookup_cons]
      have : e.1 ≠ k' := he ▸ Ne.symm h
      simp [this, ih]
    · rw [if_neg he, alookup_cons, alookup_cons, ih]

theorem alookup_append_self {β : Type} (l : List (String × β)) (k : String) (v : β)
    (h : alookup l k = none) : alookup (l ++ [(k, v)]) k = some v := by
  induction l with
  | nil => simp [alookup_cons]
  | cons e tl ih =>
    rw [alookup_cons] at h
    rw [List.cons_append, alookup_cons]
    by_cases he : e.1 = k
    · simp [he] at h
    · simp only [he, if_false] at h ⊢
      exact ih h

theorem alookup_append_ne {β : Type} (l : List (String × β)) (k : String) (v : β)
    (k' : String) (h : k' ≠ k) : alookup (l ++ [(k, v)]) k' = alookup l k' := by
  induction l with
  | nil => simp [alookup_cons, Ne.symm h]
  | cons e tl ih =>
    rw [List.cons_append, alookup_cons, alookup_cons, ih]

theorem mem_aupdate {β : Type} {l : List (String × β)} {k : String} {v : β}
    {e : String × β} (he : e ∈ aupdate l k v) : (e.1 ≠ k ∧ e ∈ l) ∨ e = (k, v) := by
  rcases List.mem_map.mp he with ⟨e0, he0, heq⟩
  by_cases h0 : e0.1 = k
  · right; simpa [h0] using heq.symm
  · left
    rw [if_neg h0] at heq
    exact heq ▸ ⟨h0, he0⟩

theorem alookup_mem {β : Type} {l : List (String × β)} {k : String} {v : β}
    (h : alookup l k = some v) : (k, v) ∈ l := by
  induction l with
  | nil => simp [alookup] at h
  | cons e tl ih =>
    rw [alookup_cons] at h
    by_cases he : e.1 = k
    · simp only [he, if_pos] at h
      cases h
      cases e
      simp_all
    · rw [if_neg he] at h
      exact List.mem_cons_of_mem _ (ih h)

/-! ### Player-map lemmas -/

theorem pget_cons (p : Player) (ps : List Player) (k : String) :
    pget (p :: ps) k = if p.id = k then some p else pget ps k := by
  by_cases h : p.id = k
  · simp [pget, List.find?_cons_of_pos, h]
  · simp [pget, List.find?_cons_of_neg, h]

theorem pdelete_cons (p : Player) (ps : List Player) (k : String) :
    pdelete (p :: ps) k = if p.id = k then pdelete ps k else p :: pdelete ps k := by
  by_cases h : p.id = k <;> simp [pdelete, List.filter_cons, h]

theorem pget_pdelete_self (ps : List Player) (k : String) :
    pget (pdelete ps k) k = none := by
  induction ps with
  | nil => rfl
  | cons p tl ih =>
    rw [pdelete_cons]
    by_cases hp : p.id = k
    · rw [if_pos hp]; exact ih
    · rw [if_neg hp, pget_cons, if_neg hp]; exact ih

theorem pget_pdelete_ne (ps : List Player) (k x : String) (h : x ≠ k) :
    pget (pdelete ps k) x = pget ps x := by
  induction ps with
  | nil => rfl
  | cons p tl ih =>
    rw [pdelete_cons]
    by_cases hp : p.id = k
    · rw [if_pos hp, pget_cons]
      have : p.id ≠ x := hp ▸ Ne.symm h
      simp [this, ih]
    · rw [if_neg hp, pget_cons, pget_cons, ih]

/-- `pget` through an id-preserving rewrite of every entry. -/
theorem pget_map_idpres (ps : List Player) (f : Player → Player)
    (hf : ∀ p, (f p).id = p.id) (x : String) :
    pget (ps.map f) x = (pget ps x).map f := by
  induction ps with
  | nil => rfl
  | cons p tl ih =>
    rw [List.map_cons, pget_cons, pget_cons, hf]
    by_cases hp : p.id = x
    · simp [hp]
    · simp [hp, ih]

/-- An id-preserving rewrite of every entry keeps the id list. -/
theorem ids_map_idpres (ps : List Player) (f : Player → Player)
    (hf : ∀ p, (f p).id = p.id) : (ps.map f).map Player.id = ps.map Player.id := by
  induction ps with
  | nil => rfl
  | cons p tl ih => simp [hf, ih]

theorem mem_ids_pdelete (ps : List Player) (k x : String)
    (h : x ∈ (pdelete ps k).map Player.id) : x ∈ ps.map Player.id := by
  rcases List.mem_map.mp h with ⟨p, hp, rfl⟩
  exact List.mem_map.mpr ⟨p, (List.mem_filter.mp hp).1, rfl⟩

theorem pget_mem_ids {ps : List Player} {x : String} {p : Player}
    (h : pget ps x = some p) : p.id ∈ ps.map Player.id :=
  List.mem_map.mpr ⟨p, List.mem_of_find?_eq_some h, rfl⟩

theorem pget_id {ps : List Player} {x : String} {p : Player}
    (h : pget ps x = some p) : p.id = x := by
  have := List.find?_some h
  simpa using this

/-! ### State-projection lemmas: which plumbing touches which component -/

@[simp] theorem sessions_roomJoin (st : ServerState) (sid sock : String) :
    (roomJoin st sid sock).sessions = st.sessions := by
  by_cases h : sock ∈ roomMembers st sid <;> simp [roomJoin, h]

@[simp] theorem sessions_roomLeave (st : ServerState) (sid sock : String) :
    (roomLeave st sid sock).sessions = st.sessions := rfl

@[simp] theorem sessions_clearSockAttrs (st : ServerState) (sock : String) :
    (clearSockAttrs st sock).sessions = st.sessions := rfl

@[simp] theorem sessions_clearPending (st : ServerState) (t : Nat) :
    (clearPending st t).sessions = st.sessions := rfl

@[simp] theorem sessions_writeSession (st : ServerState) (sid : String) (s : Session) :
    (writeSession st sid s).sessions = aupdate st.sessions sid s := rfl

@[simp] theorem sessions_insertSession (st : ServerState) (sid : String) (s : Session) :
    (insertSession st sid s).sessions = st.sessions ++ [(sid, s)] := rfl

@[simp] theorem sessions_removeSession (st : ServerState) (sid : String) :
    (removeSession st sid).sessions = adelete st.sessions sid := rfl

@[simp] theorem pending_roomJoin (st : ServerState) (sid sock : String) :
    (roomJoin st sid sock).pending = st.pending := by
  by_cases h : sock ∈ roomMembers st sid <;> simp [roomJoin, h]

@[simp] theorem pending_roomLeave (st : ServerState) (sid sock : String) :
    (roomLeave st sid sock).pending = st.pending := rfl

@[simp] theorem pending_clearSockAttrs (st : ServerState) (sock : String) :
    (clearSockAttrs st sock).pending = st.pending := rfl

@[simp] theorem pending_writeSession (st : ServerState) (sid : String) (s : Session) :
    (writeSession st sid s).pending = st.pending := rfl

@[simp] theorem pending_insertSession (st : ServerState) (sid : String) (s : Session) :
    (insertSession st sid s).pending = st.pending := rfl

@[simp] theorem pending_removeSession (st : ServerState) (sid : String) :
    (removeSession st sid).pending = st.pending := rfl

@[simp] theorem pending_clearPending (st : ServerState) (t : Nat) :
    (clearPending st t).pending = st.pending.filter (fun e => e.1 ≠ t) := rfl

@[simp] theorem nextTimer_roomJoin (st : ServerState) (sid sock : String) :
    (roomJoin st sid sock).nextTimer = st.nextTimer := by
  by_cases h : sock ∈ roomMembers st sid <;> simp [roomJoin, h]

@[simp] theorem nextTimer_roomLeave (st : ServerState) (sid sock : String) :
    (roomLeave st sid sock).nextTimer = st.nextTimer := rfl

@[simp] theorem nextTimer_clearSockAttrs (st : ServerState) (sock : String) :
    (clearSockAttrs st sock).nextTimer = st.nextTimer := rfl

@[simp] theorem nextTimer_writeSession (st : ServerState) (sid : String) (s : Session) :
    (writeSession st sid s).nextTimer = st.nextTimer := rfl

@[simp] theorem nextTimer_insertSession (st : ServerState) (sid : String) (s : Session) :
    (insertSession st sid s).nextTimer = st.nextTimer := rfl

@[simp] theorem nextTimer_removeSession (st : ServerState) (sid : String) :
    (removeSession st sid).nextTimer = st.nextTimer := rfl

@[simp] theorem nextTimer_clearPending (st : ServerState) (t : Nat) :
    (clearPending st t).nextTimer = st.nextTimer := rfl

@[simp] theorem sockSession_writeSession (st : ServerState) (sid : String) (s : Session) :
    (writeSession st sid s).sockSession = st.sockSession := rfl

@[simp] theorem sockSession_roomJoin (st : ServerState) (sid sock : String) :
    (roomJoin st sid sock).sockSession = st.sockSession := by
  by_cases h : sock ∈ roomMembers st sid <;> simp [roomJoin, h]

@[simp] theorem sockSession_roomLeave (st : ServerState) (sid sock : String) :
    (roomLeave st sid sock).sockSession = st.sockSession := rfl

@[simp] theorem sockSession_clearSockAttrs (st : ServerState) (sock : String) :
    (clearSockAttrs st sock).sockSession = adelete st.sockSession sock := rfl

@[simp] theorem sockSession_clearPending (st : ServerState) (t : Nat) :
    (clearPending st t).sockSession = st.sockSession := rfl

@[simp] theorem sockSession_removeSession (st : ServerState) (sid : String) :
    (removeSession st sid).sockSession = st.sockSession := rfl

theorem lookupSession_eq (st : ServerState) (sid : String) :
    lookupSession st sid = alookup st.sessions sid := rfl

/-! ### Invariants -/

/-- Claim C2's invariant: the GM of every live, non-empty session is one
of its players. -/
def GmInv (st : ServerState) : Prop :=
  ∀ e ∈ st.sessions, e.2.players ≠ [] → e.2.gm ∈ e.2.players.map Player.id

/-- Claim C7's invariant: every armed, not-yet-cancelled expiry timer
belongs to a live session which is in progress and whose `timer` field is
exactly this timer; timer ids are unique and below the freshness counter,
and every live session's non-null `timer` is still pending. -/
def TimerInv (st : ServerState) : Prop :=
  (∀ e ∈ st.sessions, ∀ t, e.2.timer = some t → (t, e.1) ∈ st.pending)
  ∧ (∀ q ∈ st.pending, ∃ s, lookupSession st q.2 = some s
       ∧ s.timer = some q.1 ∧ s.inProgress = true)
  ∧ (∀ q ∈ st.pending, q.1 < st.nextTimer)
  ∧ (st.pending.map Prod.fst).Nodup

/-- Spec invariant (d): a live session never has zero players — the last
departure deletes the session instead. -/
def NonEmptyInv (st : ServerState) : Prop :=
  ∀ e ∈ st.sessions, e.2.players ≠ []

def Inv (st : ServerState) : Prop := GmInv st ∧ NonEmptyInv st ∧ TimerInv st

/-! ### Facts about `rotateGm` and `endRound` -/

theorem rotateGm_mem (ids : List String) (gm : String) (h : ids ≠ []) :
    rotateGm ids gm ∈ ids := by
  unfold rotateGm
  have hl : ids.length > 0 := List.length_pos.mpr h
  rw [if_pos hl]
  by_cases hm : gm ∈ ids
  · rw [if_pos hm]
    have hlt : (ids.indexOf gm + 1) % ids.length < ids.length := Nat.mod_lt _ hl
    rw [List.getD_eq_getElem _ _ hlt]
    exact List.getElem_mem hlt
  · rw [if_neg hm]
    rw [List.getD_eq_getElem _ _ hl]
    exact List.getElem_mem hl

theorem awardWinner_ids (ps : List Player) (w : Option String) :
    (awardWinner ps w).map Player.id = ps.map Player.id := by
  cases w with
  | none => rfl
  | some x => exact ids_map_idpres ps _ (fun p => by by_cases h : p.id = x <;> simp [h])

theorem endRound_players_ids (s : Session) (w : Option String) :
    (endRound s w).players.map Player.id = s.players.map Player.id := by
  show ((awardWinner s.players w).map (fun (p : Player) => { p with attemptsLeft := 0 })).map
      Player.id = s.players.map Player.id
  rw [ids_map_idpres (awardWinner s.players w)
    (fun (p : Player) => { p with attemptsLeft := 0 }) (fun p => rfl), awardWinner_ids]

@[simp] theorem endRound_timer (s : Session) (w : Option String) :
    (endRound s w).timer = none := rfl

@[simp] theorem endRound_inProgress (s : Session) (w : Option String) :
    (endRound s w).inProgress = false := rfl

@[simp] theorem endRound_winner (s : Session) (w : Option String) :
    (endRound s w).winner = w := rfl

theorem endRound_gm_mem (s : Session) (w : Option String) (h : s.players ≠ []) :
    (endRound s w).gm ∈ (endRound s w).players.map Player.id := by
  rw [endRound_players_ids]
  have hids : (awardWinner s.players w).map Player.id = s.players.map Player.id :=
    awardWinner_ids s.players w
  have hne : s.players.map Player.id ≠ [] := by
    intro hc
    exact h (List.map_eq_nil_iff.mp hc)
  show rotateGm ((awardWinner s.players w).map Player.id) s.gm ∈ s.players.map Player.id
  rw [hids]
  exact rotateGm_mem _ _ hne

theorem pget_endRound (s : Session) (w : Option String) (x : String) :
    pget (endRound s w).players x =
      (pget s.players x).map (fun p =>
        { p with score := if w = some p.id then p.score + 10 else p.score,
                 attemptsLeft := 0 }) := by
  show pget ((awardWinner s.players w).map (fun (p : Player) => { p with attemptsLeft := 0 })) x
    = _
  rw [pget_map_idpres (awardWinner s.players w)
    (fun (p : Player) => { p with attemptsLeft := 0 }) (fun p => rfl)]
  cases w with
  | none =>
    show (pget s.players x).map _ = _
    cases hp : pget s.players x <;> simp
  | some v =>
    show (pget (s.players.map (fun (p : Player) =>
      if p.id = v then { p with score := p.score + 10 } else p)) x).map
        (fun (p : Player) => { p with attemptsLeft := 0 }) = _
    rw [pget_map_idpres s.players
      (fun (p : Player) => if p.id = v then { p with score := p.score + 10 } else p)
      (fun p => by by_cases h : p.id = v <;> simp [h])]
    cases hp : pget s.players x with
    | none => rfl
    | some p =>
      by_cases h : p.id = v
      · simp [h]
      · have : ¬ v = p.id := fun hc => h hc.symm
        simp [h, this]

/-! ### Lookup through state plumbing -/

theorem lookupSession_writeSession_ne (st : ServerState) (sid : String) (s : Session)
    (x : String) (h : x ≠ sid) :
    lookupSession (writeSession st sid s) x = lookupSession st x :=
  alookup_aupdate_ne st.sessions sid s x h

theorem lookupSession_writeSession_self (st : ServerState) (sid : String) (s : Session) :
    lookupSession (writeSession st sid s) sid = (lookupSession st sid).map (fun _ => s) :=
  alookup_aupdate_self st.sessions sid s

theorem lookupSession_removeSession_self (st : ServerState) (sid : String) :
    lookupSession (removeSession st sid) sid = none :=
  alookup_adelete_self st.sessions sid

theorem lookupSession_removeSession_ne (st : ServerState) (sid x : String) (h : x ≠ sid) :
    lookupSession (removeSession st sid) x = lookupSession st x :=
  alookup_adelete_ne st.sessions sid x h

theorem lookupSession_insertSession_self (st : ServerState) (sid : String) (s : Session)
    (h : lookupSession st sid = none) :
    lookupSession (insertSession st sid s) sid = some s :=
  alookup_append_self st.sessions sid s h

theorem lookupSession_insertSession_ne (st : ServerState) (sid : String) (s : Session)
    (x : String) (h : x ≠ sid) :
    lookupSession (insertSession st sid s) x = lookupSession st x :=
  alookup_append_ne st.sessions sid s x h

/-- With pairwise-distinct keys, a key determines its pending entry. -/
theorem nodup_keys_eq {l : List (Nat × String)} (h : (l.map Prod.fst).Nodup)
    {t : Nat} {a b : String} (ha : (t, a) ∈ l) (hb : (t, b) ∈ l) : a = b := by
  induction l with
  | nil => cases ha
  | cons e tl ih =>
    rw [List.map_cons, List.nodup_cons] at h
    cases ha with
    | head =>
      cases hb with
      | head => rfl
      | tail _ hb' => exact absurd (List.mem_map.mpr ⟨(t, b), hb', rfl⟩) h.1
    | tail _ ha' =>
      cases hb with
      | head => exact absurd (List.mem_map.mpr ⟨(t, a), ha', rfl⟩) h.1
      | tail _ hb' => exact ih h.2 ha' hb'

/-! ### `endGame` preserves the invariants -/

theorem endGame_state_none {st : ServerState} {sid : String} (reason : String)
    (w : Option String) (h : lookupSession st sid = none) :
    (endGame st sid reason w).1 = st := by
  unfold endGame
  rw [h]

theorem endGame_state_some {st : ServerState} {sid : String} {session : Session}
    (reason : String) (w : Option String) (h : lookupSession st sid = some session) :
    (endGame st sid reason w).1 =
      writeSession (match session.timer with
        | some t => clearPending st t
        | none => st) sid (endRound session w) := by
  unfold endGame
  rw [h]

/-- `endRound` keeps the roster non-empty. -/
theorem endRound_players_ne_nil {s : Session} (w : Option String)
    (h : s.players ≠ []) : (endRound s w).players ≠ [] := by
  intro hc
  apply h
  have := congrArg (List.map Player.id) hc
  rw [endRound_players_ids] at this
  exact List.map_eq_nil_iff.mp this

theorem endGame_inv (st : ServerState) (sid reason : String) (w : Option String)
    (h : Inv st) : Inv (endGame st sid reason w).1 := by
  obtain ⟨hgm, hne, hT0, hT1, hT2, hT3⟩ := h
  cases hl : lookupSession st sid with
  | none => rw [endGame_state_none reason w hl]; exact ⟨hgm, hne, hT0, hT1, hT2, hT3⟩
  | some session =>
    rw [endGame_state_some reason w hl]
    have hmem : (sid, session) ∈ st.sessions := alookup_mem hl
    -- facts about the intermediate clear-timer state
    have hpend : ∀ q, q ∈ (match session.timer with
        | some t => clearPending st t
        | none => st).pending → q ∈ st.pending ∧ session.timer ≠ some q.1 := by
      intro q hq
      cases htm : session.timer with
      | none => rw [htm] at hq; exact ⟨hq, by simp⟩
      | some t =>
        rw [htm] at hq
        replace hq : q ∈ (clearPending st t).pending := hq
        simp only [pending_clearPending, List.mem_filter, decide_eq_true_eq] at hq
        refine ⟨hq.1, ?_⟩
        intro hc
        exact hq.2 (Option.some.inj hc).symm
    have hpend2 : ∀ q, q ∈ st.pending → session.timer ≠ some q.1 →
        q ∈ (match session.timer with
          | some t => clearPending st t
          | none => st).pending := by
      intro q hq hne
      cases htm : session.timer with
      | none => exact hq
      | some t =>
        show q ∈ (clearPending st t).pending
        simp only [pending_clearPending, List.mem_filter, decide_eq_true_eq]
        refine ⟨hq, ?_⟩
        intro hc
        rw [htm] at hne
        exact hne (by rw [hc])
    have hsess : (match session.timer with
        | some t => clearPending st t
        | none => st).sessions = st.sessions := by
      cases session.timer <;> rfl
    have hnt : (match session.timer with
        | some t => clearPending st t
        | none => st).nextTimer = st.nextTimer := by
      cases session.timer <;> rfl
    have hpsub : (match session.timer with
        | some t => clearPending st t
        | none => st).pending.Sublist st.pending := by
      cases session.timer with
      | none => exact List.Sublist.refl _
      | some t => exact List.filter_sublist _
    refine ⟨?_, ?_, ?_, ?_, ?_, ?_⟩
    -- GmInv
    · intro e he
      rw [sessions_writeSession, hsess] at he
      rcases mem_aupdate he with ⟨hne', he'⟩ | rfl
      · exact hgm e he'
      · exact fun _ => endRound_gm_mem session w (hne (sid, session) hmem)
    -- NonEmptyInv
    · intro e he
      rw [sessions_writeSession, hsess] at he
      rcases mem_aupdate he with ⟨hne', he'⟩ | rfl
      · exact hne e he'
      · exact endRound_players_ne_nil w (hne (sid, session) hmem)
    -- T0
    · intro e he t' ht'
      rw [sessions_writeSession, hsess] at he
      rw [pending_writeSession]
      rcases mem_aupdate he with ⟨hne', he'⟩ | rfl
      · have hold : (t', e.1) ∈ st.pending := hT0 e he' t' ht'
        apply hpend2 (t', e.1) hold
        intro hc
        have hsid : (t', sid) ∈ st.pending := hT0 (sid, session) hmem t' hc
        exact hne' (nodup_keys_eq hT3 hold hsid)
      · simp at ht'
    -- T1
    · intro q hq
      rw [pending_writeSession] at hq
      obtain ⟨hq', hqt⟩ := hpend q hq
      obtain ⟨s0, hs0, hs0t, hs0p⟩ := hT1 q hq'
      have hqsid : q.2 ≠ sid := by
        intro hc
        rw [hc, hl] at hs0
        cases hs0
        exact hqt hs0t
      refine ⟨s0, ?_, hs0t, hs0p⟩
      rw [lookupSession_writeSession_ne _ _ _ _ hqsid, lookupSession_eq, hsess,
        ← lookupSession_eq]
      exact hs0
    -- T2
    · intro q hq
      rw [pending_writeSession] at hq
      rw [nextTimer_writeSession, hnt]
      exact hT2 q (hpend q hq).1
    -- T3
    · rw [pending_writeSession]
      exact hT3.sublist (hpsub.map Prod.fst)

/-! ### The departure paths preserve the invariants -/

theorem mem_ids_pdelete_of_ne {ps : List Player} {k x : String}
    (hx : x ∈ ps.map Player.id) (hne : x ≠ k) : x ∈ (pdelete ps k).map Player.id := by
  rcases List.mem_map.mp hx with ⟨p, hp, rfl⟩
  refine List.mem_map.mpr ⟨p, List.mem_filter.mpr ⟨hp, ?_⟩, rfl⟩
  simpa using hne

theorem head_id_mem (ps : List Player) (d : String) (h : ps ≠ []) :
    ((ps.head?.map Player.id).getD d) ∈ ps.map Player.id := by
  cases ps with
  | nil => exact absurd rfl h
  | cons p tl => simp

theorem pdelete_ne_nil {ps : List Player} {k : String} (h : pdelete ps k ≠ []) :
    ps ≠ [] := by
  intro hc
  rw [hc] at h
  exact h rfl

/-- `leaveTail` re-establishes the invariants given: every `sid` entry of
the incoming state is `s1`; `s1` is what `sid` resolves to; all other
sessions satisfy the GM condition; `s1`'s GM is a member unless the
leaver was the GM; and the timer invariant holds. -/
theorem leaveTail_inv (st3 : ServerState) (sid sock : String) (s1 : Session) (e1 : Emit)
    (hE : ∀ e ∈ st3.sessions, e.1 = sid → e.2 = s1)
    (hlk : lookupSession st3 sid = some s1)
    (hP2 : ∀ e ∈ st3.sessions, e.1 ≠ sid → e.2.players ≠ [] →
      e.2.gm ∈ e.2.players.map Player.id)
    (hP3 : sock ≠ s1.gm → s1.players ≠ [] → s1.gm ∈ s1.players.map Player.id)
    (hNE : ∀ e ∈ st3.sessions, e.1 ≠ sid → e.2.players ≠ [])
    (hT : TimerInv st3) :
    Inv (leaveTail st3 sid sock s1 e1).1 := by
  obtain ⟨hT0, hT1, hT2, hT3⟩ := hT
  have hmem1 : (sid, s1) ∈ st3.sessions := alookup_mem hlk
  unfold leaveTail
  by_cases h1 : s1.players.isEmpty
  · -- the session is emptied: cancel its timer and delete it
    rw [if_pos h1]
    have hpend : ∀ q, q ∈ (match s1.timer with
        | some t => clearPending st3 t
        | none => st3).pending → q ∈ st3.pending ∧ s1.timer ≠ some q.1 := by
      intro q hq
      cases htm : s1.timer with
      | none => rw [htm] at hq; exact ⟨hq, by simp⟩
      | some t =>
        rw [htm] at hq
        replace hq : q ∈ (clearPending st3 t).pending := hq
        simp only [pending_clearPending, List.mem_filter, decide_eq_true_eq] at hq
        refine ⟨hq.1, ?_⟩
        intro hc
        exact hq.2 (Option.some.inj hc).symm
    have hsess : (match s1.timer with
        | some t => clearPending st3 t
        | none => st3).sessions = st3.sessions := by
      cases s1.timer <;> rfl
    have hnt : (match s1.timer with
        | some t => clearPending st3 t
        | none => st3).nextTimer = st3.nextTimer := by
      cases s1.timer <;> rfl
    have hpsub : (match s1.timer with
        | some t => clearPending st3 t
        | none => st3).pending.Sublist st3.pending := by
      cases s1.timer with
      | none => exact List.Sublist.refl _
      | some t => exact List.filter_sublist _
    refine ⟨?_, ?_, ?_, ?_, ?_, ?_⟩
    · intro e he hne
      rw [sessions_removeSession, hsess] at he
      have he' := List.mem_filter.mp he
      refine hP2 e he'.1 ?_ hne
      simpa using he'.2
    · intro e he
      rw [sessions_removeSession, hsess] at he
      have he' := List.mem_filter.mp he
      refine hNE e he'.1 ?_
      simpa using he'.2
    · intro e he t' ht'
      rw [sessions_removeSession, hsess] at he
      have he' := List.mem_filter.mp he
      have hne : e.1 ≠ sid := by simpa using he'.2
      have hold : (t', e.1) ∈ st3.pending := hT0 e he'.1 t' ht'
      rw [pending_removeSession]
      cases htm : s1.timer with
      | none => exact hold
      | some t0 =>
        show (t', e.1) ∈ (clearPending st3 t0).pending
        simp only [pending_clearPending, List.mem_filter, decide_eq_true_eq]
        refine ⟨hold, ?_⟩
        intro hc
        have hsid : (t0, sid) ∈ st3.pending := hT0 (sid, s1) hmem1 t0 htm
        rw [hc] at hold
        exact hne (nodup_keys_eq hT3 hold hsid)
    · intro q hq
      rw [pending_removeSession] at hq
      obtain ⟨hq', hqt⟩ := hpend q hq
      obtain ⟨s0, hs0, hs0t, hs0p⟩ := hT1 q hq'
      have hqsid : q.2 ≠ sid := by
        intro hc
        rw [hc, hlk] at hs0
        cases hs0
        exact hqt hs0t
      refine ⟨s0, ?_, hs0t, hs0p⟩
      rw [lookupSession_removeSession_ne _ _ _ hqsid, lookupSession_eq, hsess,
        ← lookupSession_eq]
      exact hs0
    · intro q hq
      rw [pending_removeSession] at hq
      rw [nextTimer_removeSession, hnt]
      exact hT2 q (hpend q hq).1
    · rw [pending_removeSession]
      exact hT3.sublist (hpsub.map Prod.fst)
  · -- players remain: maybe reassign the GM, maybe force a round end
    rw [if_neg h1]
    have hpne : s1.players ≠ [] := by
      intro hc
      exact h1 (by rw [hc]; rfl)
    by_cases h2 : sock = s1.gm
    · -- the leaver was the GM: the first remaining player takes over
      rw [if_pos h2]
      dsimp only
      set s2 : Session := { s1 with gm := (s1.players.head?.map Player.id).getD "" } with hs2
      have hinv4 : Inv (writeSession st3 sid s2) := by
        refine ⟨?_, ?_, ?_, ?_, ?_, ?_⟩
        · intro e he hne
          rw [sessions_writeSession] at he
          rcases mem_aupdate he with ⟨hne', he'⟩ | rfl
          · exact hP2 e he' hne' hne
          · show s2.gm ∈ s1.players.map Player.id
            exact head_id_mem s1.players "" hpne
        · intro e he
          rw [sessions_writeSession] at he
          rcases mem_aupdate he with ⟨hne', he'⟩ | rfl
          · exact hNE e he' hne'
          · exact hpne
        · intro e he t' ht'
          rw [sessions_writeSession] at he
          rw [pending_writeSession]
          rcases mem_aupdate he with ⟨_, he'⟩ | rfl
          · exact hT0 e he' t' ht'
          · exact hT0 (sid, s1) hmem1 t' ht'
        · intro q hq
          rw [pending_writeSession] at hq
          obtain ⟨s0, hs0, hs0t, hs0p⟩ := hT1 q hq
          by_cases hqs : q.2 = sid
          · refine ⟨s2, ?_, ?_, ?_⟩
            · rw [hqs, lookupSession_writeSession_self, hlk]; rfl
            · rw [hqs, hlk] at hs0
              cases hs0
              exact hs0t
            · rw [hqs, hlk] at hs0
              cases hs0
              exact hs0p
          · refine ⟨s0, ?_, hs0t, hs0p⟩
            rw [lookupSession_writeSession_ne _ _ _ _ hqs]
            exact hs0
        · intro q hq
          rw [pending_writeSession] at hq
          rw [nextTimer_writeSession]
          exact hT2 q hq
        · rw [pending_writeSession]
          exact hT3
      split
      · exact endGame_inv _ sid "stopped_not_enough_players" none hinv4
      · exact hinv4
    · -- the leaver was not the GM: the GM stays
      rw [if_neg h2]
      dsimp only
      have hinv4 : Inv st3 := by
        refine ⟨?_, ?_, hT0, hT1, hT2, hT3⟩
        · intro e he hne
          by_cases hes : e.1 = sid
          · rw [hE e he hes]
            rw [hE e he hes] at hne
            exact hP3 h2 hne
          · exact hP2 e he hes hne
        · intro e he
          by_cases hes : e.1 = sid
          · rw [hE e he hes]
            exact hpne
          · exact hNE e he hes
      split
      · exact endGame_inv _ sid "stopped_not_enough_players" none hinv4
      · exact hinv4

/-- Invariants only read `sessions`, `pending` and `nextTimer`. -/
theorem inv_of_eq_parts (st st' : ServerState) (hs : st'.sessions = st.sessions)
    (hp : st'.pending = st.pending) (hn : st'.nextTimer = st.nextTimer)
    (h : Inv st) : Inv st' := by
  obtain ⟨hgm, hne, hT0, hT1, hT2, hT3⟩ := h
  refine ⟨?_, ?_, ?_, ?_, ?_, ?_⟩
  · intro e he
    rw [hs] at he
    exact hgm e he
  · intro e he
    rw [hs] at he
    exact hne e he
  · intro e he t' ht'
    rw [hs] at he
    rw [hp]
    exact hT0 e he t' ht'
  · intro q hq
    rw [hp] at hq
    obtain ⟨s0, hs0, hs0t, hs0p⟩ := hT1 q hq
    refine ⟨s0, ?_, hs0t, hs0p⟩
    rw [lookupSession_eq, hs, ← lookupSession_eq]
    exact hs0
  · intro q hq
    rw [hp] at hq
    rw [hn]
    exact hT2 q hq
  · rw [hp]
    exact hT3

theorem pset_ne_nil (ps : List Player) (p : Player) : pset ps p ≠ [] := by
  unfold pset
  by_cases h : ps.any (fun q => q.id = p.id)
  · rw [if_pos h]
    intro hc
    rw [List.map_eq_nil_iff.mp hc] at h
    simp at h
  · rw [if_neg h]
    simp

theorem mem_ids_pset {ps : List Player} {x : String} (p : Player)
    (h : x ∈ ps.map Player.id) : x ∈ (pset ps p).map Player.id := by
  unfold pset
  by_cases hg : ps.any (fun q => q.id = p.id)
  · rw [if_pos hg]
    rw [ids_map_idpres ps (fun q => if q.id = p.id then p else q)
      (fun q => by by_cases hq : q.id = p.id <;> simp [hq])]
    exact h
  · rw [if_neg hg, List.map_append]
    exact List.mem_append_left _ h

/-- Rewriting one live session in a way that keeps its timer, its
round-state, a non-empty roster, and a GM in the roster, preserves the
invariants. -/
theorem writeSession_inv (st : ServerState) (sid : String) (session s1 : Session)
    (hl : lookupSession st sid = some session)
    (h : Inv st)
    (htm : s1.timer = session.timer)
    (hip : s1.inProgress = session.inProgress)
    (hpl : s1.players ≠ [])
    (hgm1 : s1.gm ∈ s1.players.map Player.id) :
    Inv (writeSession st sid s1) := by
  obtain ⟨hgm, hne, hT0, hT1, hT2, hT3⟩ := h
  have hmem : (sid, session) ∈ st.sessions := alookup_mem hl
  refine ⟨?_, ?_, ?_, ?_, ?_, ?_⟩
  · intro e he
    rw [sessions_writeSession] at he
    rcases mem_aupdate he with ⟨_, he'⟩ | rfl
    · exact hgm e he'
    · exact fun _ => hgm1
  · intro e he
    rw [sessions_writeSession] at he
    rcases mem_aupdate he with ⟨_, he'⟩ | rfl
    · exact hne e he'
    · exact hpl
  · intro e he t' ht'
    rw [sessions_writeSession] at he
    rw [pending_writeSession]
    rcases mem_aupdate he with ⟨_, he'⟩ | rfl
    · exact hT0 e he' t' ht'
    · rw [htm] at ht'
      exact hT0 (sid, session) hmem t' ht'
  · intro q hq
    rw [pending_writeSession] at hq
    obtain ⟨s0, hs0, hs0t, hs0p⟩ := hT1 q hq
    by_cases hqs : q.2 = sid
    · refine ⟨s1, ?_, ?_, ?_⟩
      · rw [hqs, lookupSession_writeSession_self, hl]
        rfl
      · rw [hqs, hl] at hs0
        cases hs0
        rw [htm]
        exact hs0t
      · rw [hqs, hl] at hs0
        cases hs0
        rw [hip]
        exact hs0p
    · refine ⟨s0, ?_, hs0t, hs0p⟩
      rw [lookupSession_writeSession_ne _ _ _ _ hqs]
      exact hs0
  · intro q hq
    rw [pending_writeSession] at hq
    rw [nextTimer_writeSession]
    exact hT2 q hq
  · rw [pending_writeSession]
    exact hT3

/-- The shared preparation of both departure paths (delete the player,
leave the room, clear the socket attributes) hands `leaveTail` a state
satisfying its preconditions. -/
theorem leavePrep_inv (st : ServerState) (sid sock : String) (session : Session) (e1 : Emit)
    (hl : lookupSession st sid = some session) (h : Inv st) :
    Inv (leaveTail (clearSockAttrs (roomLeave (writeSession st sid
      { session with players := pdelete session.players sock }) sid sock) sock)
      sid sock { session with players := pdelete session.players sock } e1).1 := by
  obtain ⟨hgm, hne, hT0, hT1, hT2, hT3⟩ := h
  have hmem : (sid, session) ∈ st.sessions := alookup_mem hl
  set s1 : Session := { session with players := pdelete session.players sock } with hs1
  set st3 := clearSockAttrs (roomLeave (writeSession st sid s1) sid sock) sock with hst3
  have hsess3 : st3.sessions = aupdate st.sessions sid s1 := by
    rw [hst3]
    simp
  have hpend3 : st3.pending = st.pending := by
    rw [hst3]
    simp
  have hnt3 : st3.nextTimer = st.nextTimer := by
    rw [hst3]
    simp
  have hlk3 : lookupSession st3 sid = some s1 := by
    rw [lookupSession_eq, hsess3, alookup_aupdate_self, ← lookupSession_eq, hl]
    rfl
  refine leaveTail_inv st3 sid sock s1 e1 ?_ hlk3 ?_ ?_ ?_ ⟨?_, ?_, ?_, ?_⟩
  · intro e he hes
    rw [hsess3] at he
    rcases mem_aupdate he with ⟨hne', _⟩ | rfl
    · exact absurd hes hne'
    · rfl
  · intro e he hes hnep
    rw [hsess3] at he
    rcases mem_aupdate he with ⟨_, he'⟩ | rfl
    · exact hgm e he' hnep
    · exact absurd rfl hes
  · intro h2 hpl
    show session.gm ∈ (pdelete session.players sock).map Player.id
    have hsp : session.players ≠ [] := hne (sid, session) hmem
    have hin : session.gm ∈ session.players.map Player.id := hgm (sid, session) hmem hsp
    refine mem_ids_pdelete_of_ne hin ?_
    intro hc
    exact h2 (hc ▸ rfl)
  · intro e he hes
    rw [hsess3] at he
    rcases mem_aupdate he with ⟨_, he'⟩ | rfl
    · exact hne e he'
    · exact absurd rfl hes
  · intro e he t' ht'
    rw [hsess3] at he
    rw [hpend3]
    rcases mem_aupdate he with ⟨_, he'⟩ | rfl
    · exact hT0 e he' t' ht'
    · exact hT0 (sid, session) hmem t' ht'
  · intro q hq
    rw [hpend3] at hq
    obtain ⟨s0, hs0, hs0t, hs0p⟩ := hT1 q hq
    by_cases hqs : q.2 = sid
    · refine ⟨s1, ?_, ?_, ?_⟩
      · rw [hqs]
        exact hlk3
      · rw [hqs, hl] at hs0
        cases hs0
        exact hs0t
      · rw [hqs, hl] at hs0
        cases hs0
        exact hs0p
    · refine ⟨s0, ?_, hs0t, hs0p⟩
      rw [lookupSession_eq, hsess3, alookup_aupdate_ne _ _ _ _ hqs, ← lookupSession_eq]
      exact hs0
  · intro q hq
    rw [hpend3] at hq
    rw [hnt3]
    exact hT2 q hq
  · rw [hpend3]
    exact hT3

theorem leaveSessionByUser_inv (st : ServerState) (sid sock : String) (h : Inv st) :
    Inv (leaveSessionByUser st sid sock).1 := by
  unfold leaveSessionByUser
  cases hl : lookupSession st sid with
  | none => exact h
  | some session => exact leavePrep_inv st sid sock session _ hl h

theorem leaveSessionOnDisconnect_inv (st : ServerState) (sock sid : String) (h : Inv st) :
    Inv (leaveSessionOnDisconnect st sock sid).1 := by
  unfold leaveSessionOnDisconnect
  cases hl : lookupSession st sid with
  | none => exact h
  | some session => exact leavePrep_inv st sid sock session _ hl h

theorem handleLeaveSession_inv (st : ServerState) (sock : String) (h : Inv st) :
    Inv (handleLeaveSession st sock).1 := by
  unfold handleLeaveSession
  cases ha : alookup st.sockSession sock with
  | none => exact h
  | some sid => exact leaveSessionByUser_inv st sid sock h

theorem handleDisconnect_inv (st : ServerState) (sock : String) (h : Inv st) :
    Inv (handleDisconnect st sock).1 := by
  unfold handleDisconnect
  cases ha : alookup st.sockSession sock with
  | none => exact h
  | some sid => exact leaveSessionOnDisconnect_inv st sock sid h

theorem handleCreateSession_inv (st : ServerState) (sock rawName : String)
    (suppliedId : Option String) (genId : String) (h : Inv st) :
    Inv (handleCreateSession st sock rawName suppliedId genId).1 := by
  obtain ⟨hgm, hne, hT0, hT1, hT2, hT3⟩ := h
  unfold handleCreateSession
  dsimp only
  cases hl : lookupSession st (resolveCreateId suppliedId genId) with
  | some s => exact ⟨hgm, hne, hT0, hT1, hT2, hT3⟩
  | none =>
    dsimp only
    set sid := resolveCreateId suppliedId genId with hsid
    set name := jsTake 30 (jsTrim (if rawName = "" then "Anonymous" else rawName)) with hname
    set session : Session :=
      ⟨sid, [⟨sock, name, 0, 0⟩], sock, none, none, none, false, none, none⟩ with hsession
    set st2 := { roomJoin (insertSession st sid session) sid sock with
        sockSession := aset (roomJoin (insertSession st sid session) sid sock).sockSession
          sock sid,
        sockName := aset (roomJoin (insertSession st sid session) sid sock).sockName
          sock name } with hst2
    have hsess2 : st2.sessions = st.sessions ++ [(sid, session)] := by
      rw [hst2]
      simp
    have hpend2 : st2.pending = st.pending := by
      rw [hst2]
      simp
    have hnt2 : st2.nextTimer = st.nextTimer := by
      rw [hst2]
      simp
    refine ⟨?_, ?_, ?_, ?_, ?_, ?_⟩
    · intro e he
      rw [hsess2] at he
      rcases List.mem_append.mp he with he' | he'
      · exact hgm e he'
      · rw [List.mem_singleton.mp he']
        intro _
        simp [hsession]
    · intro e he
      rw [hsess2] at he
      rcases List.mem_append.mp he with he' | he'
      · exact hne e he'
      · rw [List.mem_singleton.mp he']
        simp [hsession]
    · intro e he t' ht'
      rw [hsess2] at he
      rw [hpend2]
      rcases List.mem_append.mp he with he' | he'
      · exact hT0 e he' t' ht'
      · rw [List.mem_singleton.mp he'] at ht'
        simp [hsession] at ht'
    · intro q hq
      rw [hpend2] at hq
      obtain ⟨s0, hs0, hs0t, hs0p⟩ := hT1 q hq
      have hqs : q.2 ≠ sid := by
        intro hc
        rw [hc, hl] at hs0
        cases hs0
      refine ⟨s0, ?_, hs0t, hs0p⟩
      rw [lookupSession_eq, hsess2, alookup_append_ne _ _ _ _ hqs, ← lookupSession_eq]
      exact hs0
    · intro q hq
      rw [hpend2] at hq
      rw [hnt2]
      exact hT2 q hq
    · rw [hpend2]
      exact hT3

theorem handleJoinSession_inv (st : ServerState) (sock rawSid rawName : String)
    (h : Inv st) : Inv (handleJoinSession st sock rawSid rawName).1 := by
  unfold handleJoinSession
  dsimp only
  cases hl : lookupSession st (jsTrim rawSid) with
  | none => exact h
  | some session =>
    dsimp only
    by_cases hip : session.inProgress = true
    · rw [if_pos hip]
      exact h
    · rw [if_neg hip]
      dsimp only
      set sid := jsTrim rawSid with hsid
      set name := jsTake 30 (jsTrim (if rawName = "" then "Anonymous" else rawName)) with hname
      set s1 : Session :=
        { session with players := pset session.players ⟨sock, name, 0, 0⟩ } with hs1
      have hsp : session.players ≠ [] := h.2.1 (sid, session) (alookup_mem hl)
      have hw : Inv (writeSession st sid s1) := by
        refine writeSession_inv st sid session s1 hl h rfl rfl (pset_ne_nil _ _) ?_
        show session.gm ∈ (pset session.players ⟨sock, name, 0, 0⟩).map Player.id
        exact mem_ids_pset _ (h.1 (sid, session) (alookup_mem hl) hsp)
      refine inv_of_eq_parts (writeSession st sid s1) _ ?_ ?_ ?_ hw <;> simp

theorem handleSetQuestion_inv (st : ServerState) (sock rawQ rawA : String)
    (h : Inv st) : Inv (handleSetQuestion st sock rawQ rawA).1 := by
  unfold handleSetQuestion
  cases ha : alookup st.sockSession sock with
  | none => exact h
  | some sid =>
    dsimp only
    cases hl : lookupSession st sid with
    | none => exact h
    | some session =>
      dsimp only
      by_cases hgm : session.gm ≠ sock
      · rw [if_pos hgm]
        exact h
      · rw [if_neg hgm]
        by_cases hip : session.inProgress = true
        · rw [if_pos hip]
          exact h
        · rw [if_neg hip]
          by_cases hqa : jsTake 500 (jsTrim rawQ) = "" ∨ jsTake 200 (jsTrim rawA) = ""
          · rw [if_pos hqa]
            exact h
          · rw [if_neg hqa]
            dsimp only
            have hsp : session.players ≠ [] := h.2.1 (sid, session) (alookup_mem hl)
            exact writeSession_inv st sid session _ hl h rfl rfl hsp
              (h.1 (sid, session) (alookup_mem hl) hsp)

theorem handleStartGame_inv (st : ServerState) (sock : String) (h : Inv st) :
    Inv (handleStartGame st sock).1 := by
  obtain ⟨hgm, hne, hT0, hT1, hT2, hT3⟩ := h
  unfold handleStartGame
  cases ha : alookup st.sockSession sock with
  | none => exact ⟨hgm, hne, hT0, hT1, hT2, hT3⟩
  | some sid =>
    dsimp only
    cases hl : lookupSession st sid with
    | none => exact ⟨hgm, hne, hT0, hT1, hT2, hT3⟩
    | some session =>
      dsimp only
      by_cases h1 : session.gm ≠ sock
      · rw [if_pos h1]
        exact ⟨hgm, hne, hT0, hT1, hT2, hT3⟩
      · rw [if_neg h1]
        by_cases h2 : session.inProgress = true
        · rw [if_pos h2]
          exact ⟨hgm, hne, hT0, hT1, hT2, hT3⟩
        · rw [if_neg h2]
          by_cases h3 : session.players.length < 2
          · rw [if_pos h3]
            exact ⟨hgm, hne, hT0, hT1, hT2, hT3⟩
          · rw [if_neg h3]
            by_cases h4 : jsFalsy session.question = true ∨ jsFalsy session.answer = true
            · rw [if_pos h4]
              exact ⟨hgm, hne, hT0, hT1, hT2, hT3⟩
            · rw [if_neg h4]
              dsimp only
              have hmem : (sid, session) ∈ st.sessions := alookup_mem hl
              have hsp : session.players ≠ [] := hne (sid, session) hmem
              set s1 : Session := { session with
                players := session.players.map (fun p => { p with attemptsLeft := 3 }),
                inProgress := true, winner := none,
                timer := some st.nextTimer } with hs1
              set st2 := { writeSession st sid s1 with
                pending := (writeSession st sid s1).pending ++ [(st.nextTimer, sid)],
                nextTimer := st.nextTimer + 1 } with hst2
              have hsess2 : st2.sessions = aupdate st.sessions sid s1 := by
                rw [hst2]
                simp
              have hpend2 : st2.pending = st.pending ++ [(st.nextTimer, sid)] := by
                rw [hst2]
                simp
              have hnt2 : st2.nextTimer = st.nextTimer + 1 := by
                rw [hst2]
              have hlk2 : lookupSession st2 sid = some s1 := by
                rw [lookupSession_eq, hsess2, alookup_aupdate_self,
                  ← lookupSession_eq, hl]
                rfl
              refine ⟨?_, ?_, ?_, ?_, ?_, ?_⟩
              · intro e he
                rw [hsess2] at he
                rcases mem_aupdate he with ⟨_, he'⟩ | rfl
                · exact hgm e he'
                · intro _
                  show session.gm ∈ (s1.players.map Player.id)
                  rw [hs1]
                  dsimp only
                  rw [ids_map_idpres session.players
                    (fun p => { p with attemptsLeft := 3 }) (fun p => rfl)]
                  exact hgm (sid, session) hmem hsp
              · intro e he
                rw [hsess2] at he
                rcases mem_aupdate he with ⟨_, he'⟩ | rfl
                · exact hne e he'
                · show s1.players ≠ []
                  rw [hs1]
                  dsimp only
                  intro hc
                  exact hsp (List.map_eq_nil_iff.mp hc)
              · intro e he t' ht'
                rw [hsess2] at he
                rw [hpend2]
                rcases mem_aupdate he with ⟨_, he'⟩ | rfl
                · exact List.mem_append_left _ (hT0 e he' t' ht')
                · have : t' = st.nextTimer := by
                    have : s1.timer = some st.nextTimer := rfl
                    rw [this] at ht'
                    exact (Option.some.inj ht').symm
                  rw [this]
                  exact List.mem_append_right _ (List.mem_singleton.mpr rfl)
              · intro q hq
                rw [hpend2] at hq
                rcases List.mem_append.mp hq with hq' | hq'
                · obtain ⟨s0, hs0, hs0t, hs0p⟩ := hT1 q hq'
                  have hqs : q.2 ≠ sid := by
                    intro hc
                    rw [hc, hl] at hs0
                    cases hs0
                    exact h2 hs0p
                  refine ⟨s0, ?_, hs0t, hs0p⟩
                  rw [lookupSession_eq, hsess2, alookup_aupdate_ne _ _ _ _ hqs,
                    ← lookupSession_eq]
                  exact hs0
                · rw [List.mem_singleton.mp hq']
                  exact ⟨s1, hlk2, rfl, rfl⟩
              · intro q hq
                rw [hpend2] at hq
                rw [hnt2]
                rcases List.mem_append.mp hq with hq' | hq'
                · exact Nat.lt_succ_of_lt (hT2 q hq')
                · rw [List.mem_singleton.mp hq']
                  exact Nat.lt_succ_self _
              · rw [hpend2, List.map_append]
                refine List.nodup_append.mpr ⟨hT3, List.nodup_singleton _, ?_⟩
                intro x hx hx'
                simp only [List.map_cons, List.map_nil, List.mem_singleton] at hx'
                rcases List.mem_map.mp hx with ⟨q, hq, hqx⟩
                exact absurd (hqx.trans hx') (Nat.ne_of_lt (hT2 q hq))

theorem handleGuess_inv (st : ServerState) (sock rawText : String) (h : Inv st) :
    Inv (handleGuess st sock rawText).1 := by
  unfold handleGuess
  cases ha : alookup st.sockSession sock with
  | none => exact h
  | some sid =>
    dsimp only
    cases hl : lookupSession st sid with
    | none => exact h
    | some session =>
      dsimp only
      by_cases hip : ¬ session.inProgress = true
      · rw [if_pos hip]
        exact h
      · rw [if_neg hip]
        cases hp : pget session.players sock with
        | none => exact h
        | some player =>
          dsimp only
          by_cases hat : player.attemptsLeft = 0
          · rw [if_pos hat]
            exact h
          · rw [if_neg hat]
            by_cases hg : jsTrim rawText = ""
            · rw [if_pos hg]
              exact h
            · rw [if_neg hg]
              have hmem : (sid, session) ∈ st.sessions := alookup_mem hl
              have hsp : session.players ≠ [] := h.2.1 (sid, session) hmem
              set p1 : Player := { player with attemptsLeft := player.attemptsLeft - 1 }
                with hp1
              set s1 : Session := { session with players := pset session.players p1 }
                with hs1
              have hgm1 : s1.gm ∈ s1.players.map Player.id := by
                rw [hs1]
                exact mem_ids_pset _ (h.1 (sid, session) hmem hsp)
              have hst1 : Inv (writeSession st sid s1) :=
                writeSession_inv st sid session s1 hl h rfl rfl (pset_ne_nil _ _) hgm1
              have hl1 : lookupSession (writeSession st sid s1) sid = some s1 := by
                rw [lookupSession_writeSession_self, hl]
                rfl
              split
              · split
                · exact endGame_inv _ sid "correct_guess" (some sock)
                    (writeSession_inv (writeSession st sid s1) sid s1
                      { s1 with winner := some sock } hl1 hst1 rfl rfl
                      (by rw [hs1]; exact pset_ne_nil _ _) hgm1)
                · exact hst1
              · split
                · exact hst1
                · exact hst1

theorem handleGetSessionState_inv (st : ServerState) (sock : String) (h : Inv st) :
    Inv (handleGetSessionState st sock).1 := by
  unfold handleGetSessionState
  cases ha : alookup st.sockSession sock with
  | none => exact h
  | some sid =>
    dsimp only
    cases hl : lookupSession st sid with
    | none => exact h
    | some session => exact h

/-- Every serialized event of the server preserves the invariants. -/
theorem step_inv {s s' : ServerState} (h : Inv s) (hs : Step s s') : Inv s' := by
  cases hs with
  | createSession sock rawName suppliedId genId =>
    exact handleCreateSession_inv s sock rawName suppliedId genId h
  | joinSession sock rawSid rawName => exact handleJoinSession_inv s sock rawSid rawName h
  | leaveSession sock => exact handleLeaveSession_inv s sock h
  | setQuestion sock rawQ rawA => exact handleSetQuestion_inv s sock rawQ rawA h
  | startGame sock => exact handleStartGame_inv s sock h
  | guess sock rawText => exact handleGuess_inv s sock rawText h
  | getSessionState sock => exact handleGetSessionState_inv s sock h
  | disconnect sock => exact handleDisconnect_inv s sock h
  | timerFire t sid hmem => exact endGame_inv s sid "time_expired" none h

theorem initState_inv : Inv initState := by
  refine ⟨?_, ?_, ?_, ?_, ?_, ?_⟩
  · intro e he
    cases he
  · intro e he
    cases he
  · intro e he
    cases he
  · intro q hq
    cases hq
  · intro q hq
    cases hq
  · exact List.nodup_nil

/-- Every reachable server state satisfies the invariants. -/
theorem reachable_inv (s : ServerState) (h : Reachable s) : Inv s := by
  induction h with
  | init => exact initState_inv
  | step _ hs ih => exact step_inv ih hs

/-! ### Case-analysis lemmas for lookups through updates -/

theorem pget_eq_none_of_not_any {ps : List Player} {x : String}
    (h : ps.any (fun q => q.id = x) = false) : pget ps x = none := by
  induction ps with
  | nil => rfl
  | cons p tl ih =>
    rw [List.any_cons] at h
    rw [pget_cons]
    rcases Bool.or_eq_false_iff.mp h with ⟨h1, h2⟩
    rw [if_neg (by simpa using h1)]
    exact ih h2

theorem pget_isSome_of_any {ps : List Player} {x : String}
    (h : ps.any (fun q => q.id = x) = true) : (pget ps x).isSome := by
  induction ps with
  | nil => simp at h
  | cons p tl ih =>
    rw [List.any_cons] at h
    rw [pget_cons]
    by_cases hp : p.id = x
    · simp [hp]
    · rw [if_neg hp]
      rcases Bool.or_eq_true_iff.mp h with h1 | h2
      · exact absurd (by simpa using h1) hp
      · exact ih h2

theorem pget_append_single_self (ps : List Player) (p : Player)
    (h : pget ps p.id = none) : pget (ps ++ [p]) p.id = some p := by
  induction ps with
  | nil => simp [pget_cons]
  | cons q tl ih =>
    rw [pget_cons] at h
    rw [List.cons_append, pget_cons]
    by_cases hq : q.id = p.id
    · simp [hq] at h
    · rw [if_neg hq] at h ⊢
      exact ih h

theorem pget_append_single_ne (ps : List Player) (p : Player) (x : String)
    (h : x ≠ p.id) : pget (ps ++ [p]) x = pget ps x := by
  induction ps with
  | nil => simp [pget_cons, Ne.symm h]
  | cons q tl ih =>
    rw [List.cons_append, pget_cons, pget_cons, ih]

theorem pget_pset_self (ps : List Player) (p : Player) :
    pget (pset ps p) p.id = some p := by
  unfold pset
  by_cases hg : ps.any (fun q => q.id = p.id)
  · rw [if_pos hg]
    rw [pget_map_idpres ps (fun q => if q.id = p.id then p else q)
      (fun q => by by_cases hq : q.id = p.id <;> simp [hq])]
    have hs := pget_isSome_of_any hg
    cases hq : pget ps p.id with
    | none => rw [hq] at hs; simp at hs
    | some q =>
      have := pget_id hq
      simp [this]
  · rw [if_neg hg]
    exact pget_append_single_self ps p (pget_eq_none_of_not_any (by simpa using hg))

theorem pget_pset_ne (ps : List Player) (p : Player) (x : String) (h : x ≠ p.id) :
    pget (pset ps p) x = pget ps x := by
  unfold pset
  by_cases hg : ps.any (fun q => q.id = p.id)
  · rw [if_pos hg]
    rw [pget_map_idpres ps (fun q => if q.id = p.id then p else q)
      (fun q => by by_cases hq : q.id = p.id <;> simp [hq])]
    cases hq : pget ps x with
    | none => rfl
    | some q =>
      have hqx := pget_id hq
      have hne : ¬ q.id = p.id := by rw [hqx]; exact h
      simp [hne]
  · rw [if_neg hg]
    exact pget_append_single_ne ps p x h

theorem pget_pset_cases {ps : List Player} {p : Player} {x : String} {p' : Player}
    (h : pget (pset ps p) x = some p') :
    (x ≠ p.id ∧ pget ps x = some p') ∨ (x = p.id ∧ p' = p) := by
  by_cases hx : x = p.id
  · right
    refine ⟨hx, ?_⟩
    rw [hx, pget_pset_self] at h
    exact (Option.some.inj h).symm
  · left
    rw [pget_pset_ne ps p x hx] at h
    exact ⟨hx, h⟩

theorem lookup_writeSession_cases {st : ServerState} {sid0 : String} {s1 : Session}
    {sid : String} {sess' : Session}
    (h : lookupSession (writeSession st sid0 s1) sid = some sess') :
    (sid ≠ sid0 ∧ lookupSession st sid = some sess') ∨ (sid = sid0 ∧ sess' = s1) := by
  by_cases hc : sid = sid0
  · right
    refine ⟨hc, ?_⟩
    rw [hc, lookupSession_writeSession_self] at h
    cases hl : lookupSession st sid0 with
    | none => rw [hl] at h; cases h
    | some s => rw [hl] at h; exact (Option.some.inj h).symm
  · left
    rw [lookupSession_writeSession_ne _ _ _ _ hc] at h
    exact ⟨hc, h⟩

theorem alookup_append_some {β : Type} {l : List (String × β)} {k : String} {v : β}
    (m : List (String × β)) (h : alookup l k = some v) : alookup (l ++ m) k = some v := by
  induction l with
  | nil => cases h
  | cons e tl ih =>
    rw [alookup_cons] at h
    rw [List.cons_append, alookup_cons]
    by_cases he : e.1 = k
    · rw [if_pos he] at h ⊢
      exact h
    · rw [if_neg he] at h ⊢
      exact ih h

theorem lookup_insertSession_cases {st : ServerState} {sid0 : String} {s1 : Session}
    {sid : String} {sess' : Session}
    (h : lookupSession (insertSession st sid0 s1) sid = some sess') :
    lookupSession st sid = some sess' ∨ (sid = sid0 ∧ sess' = s1) := by
  cases hl : lookupSession st sid with
  | some s =>
    left
    rw [lookupSession_eq, sessions_insertSession] at h
    rw [lookupSession_eq] at hl
    rw [alookup_append_some [(sid0, s1)] hl] at h
    exact h
  | none =>
    right
    by_cases hc : sid = sid0
    · rw [hc] at h hl
      rw [lookupSession_insertSession_self st sid0 s1 hl] at h
      exact ⟨hc, (Option.some.inj h).symm⟩
    · rw [lookupSession_insertSession_ne st sid0 s1 sid hc, hl] at h
      cases h

theorem ite_pair_fst {α β : Type} (c : Prop) [Decidable c] (a : α) (xs : β) (b : α)
    (ys : β) : (if c then (a, xs) else (b, ys)).1 = if c then a else b := by
  split <;> rfl

/-! ### How scores move through `endGame` and the departure tail -/

theorem endGame_score (st : ServerState) (sid0 reason : String) (w : Option String)
    (sid pid : String) (sess sess' : Session) (p p' : Player)
    (h1 : lookupSession st sid = some sess)
    (h2 : lookupSession (endGame st sid0 reason w).1 sid = some sess')
    (h3 : pget sess.players pid = some p)
    (h4 : pget sess'.players pid = some p') :
    p'.score = p.score ∨
      (p'.score = p.score + 10 ∧ w = some pid ∧ sess'.winner = some pid) := by
  cases hl : lookupSession st sid0 with
  | none =>
    rw [endGame_state_none reason w hl, h1] at h2
    cases h2
    rw [h3] at h4
    cases h4
    exact Or.inl rfl
  | some session =>
    rw [endGame_state_some reason w hl] at h2
    have hsess : (match session.timer with
        | some t => clearPending st t
        | none => st).sessions = st.sessions := by
      cases session.timer <;> rfl
    rcases lookup_writeSession_cases h2 with ⟨hne', h2'⟩ | ⟨rfl, rfl⟩
    · rw [lookupSession_eq, hsess, ← lookupSession_eq, h1] at h2'
      cases h2'
      rw [h3] at h4
      cases h4
      exact Or.inl rfl
    · rw [hl] at h1
      cases h1
      rw [pget_endRound, h3, Option.map_some'] at h4
      cases h4
      by_cases hw : w = some p.id
      · right
        have hpid : p.id = pid := pget_id h3
        refine ⟨by simp [hw], by rw [← hpid]; exact hw, ?_⟩
        rw [endRound_winner, ← hpid]
        exact hw
      · left
        simp [hw]

theorem leaveTail_score (st3 : ServerState) (sid0 sock : String) (s1 : Session) (e1 : Emit)
    (hlk : lookupSession st3 sid0 = some s1)
    (sid pid : String) (sess sess' : Session) (p p' : Player)
    (h1 : lookupSession st3 sid = some sess)
    (h2 : lookupSession (leaveTail st3 sid0 sock s1 e1).1 sid = some sess')
    (h3 : pget sess.players pid = some p)
    (h4 : pget sess'.players pid = some p') :
    p'.score = p.score := by
  unfold leaveTail at h2
  by_cases hbe : s1.players.isEmpty
  · rw [if_pos hbe] at h2
    by_cases hsid : sid = sid0
    · rw [hsid, lookupSession_removeSession_self] at h2
      cases h2
    · rw [lookupSession_removeSession_ne _ _ _ hsid] at h2
      have hmid : lookupSession (match s1.timer with
          | some t => clearPending st3 t
          | none => st3) sid = lookupSession st3 sid := by
        cases s1.timer <;> rfl
      rw [hmid, h1] at h2
      cases h2
      rw [h3] at h4
      cases h4
      rfl
  · rw [if_neg hbe] at h2
    dsimp only at h2
    -- uniform treatment of both GM branches
    have hmain : ∀ (st4 : ServerState) (s2 : Session),
        lookupSession st4 sid = some (if sid = sid0 then s2 else sess) →
        s2.players = s1.players →
        lookupSession (if s2.inProgress ∧ s2.players.length < 2 then
            (endGame st4 sid0 "stopped_not_enough_players" none).1
          else st4) sid = some sess' →
        p'.score = p.score := by
      intro st4 s2 hlk4 hps2 h2'
      have hpmid : pget (if sid = sid0 then s2 else sess).players pid = some p := by
        by_cases hsid : sid = sid0
        · rw [if_pos hsid, hps2]
          rw [hsid, hlk] at h1
          cases h1
          exact h3
        · rw [if_neg hsid]
          exact h3
      by_cases hc : s2.inProgress = true ∧ s2.players.length < 2
      · rw [if_pos hc] at h2'
        rcases endGame_score st4 sid0 "stopped_not_enough_players" none sid pid _ sess'
          p p' hlk4 h2' hpmid h4 with hres | ⟨_, hw, _⟩
        · exact hres
        · cases hw
      · rw [if_neg hc] at h2'
        rw [hlk4] at h2'
        cases h2'
        rw [hpmid] at h4
        cases h4
        rfl
    by_cases hgm : sock = s1.gm
    · rw [if_pos hgm] at h2
      dsimp only at h2
      rw [ite_pair_fst] at h2
      refine hmain (writeSession st3 sid0
        { s1 with gm := (s1.players.head?.map Player.id).getD "" })
        { s1 with gm := (s1.players.head?.map Player.id).getD "" } ?_ rfl h2
      by_cases hsid : sid = sid0
      · rw [if_pos hsid, hsid, lookupSession_writeSession_self, hlk]
        rfl
      · rw [if_neg hsid, lookupSession_writeSession_ne _ _ _ _ hsid]
        exact h1
    · rw [if_neg hgm] at h2
      dsimp only at h2
      rw [ite_pair_fst] at h2
      refine hmain st3 s1 ?_ rfl h2
      by_cases hsid : sid = sid0
      · rw [if_pos hsid, hsid]
        exact hlk
      · rw [if_neg hsid]
        exact h1

/-- After `leaveTail`, the session under `sid0` (when still live) contains
no player that `s1` did not contain. -/
theorem leaveTail_pget_none (st3 : ServerState) (sid0 sock : String) (s1 : Session)
    (e1 : Emit) (hlk : lookupSession st3 sid0 = some s1)
    (x : String) (hx : pget s1.players x = none) (sess' : Session)
    (h2 : lookupSession (leaveTail st3 sid0 sock s1 e1).1 sid0 = some sess') :
    pget sess'.players x = none := by
  unfold leaveTail at h2
  by_cases hbe : s1.players.isEmpty
  · rw [if_pos hbe, lookupSession_removeSession_self] at h2
    cases h2
  · rw [if_neg hbe] at h2
    dsimp only at h2
    have hmain : ∀ (st4 : ServerState) (s2 : Session), s2.players = s1.players →
        lookupSession st4 sid0 = some s2 →
        lookupSession (if s2.inProgress ∧ s2.players.length < 2 then
            (endGame st4 sid0 "stopped_not_enough_players" none).1
          else st4) sid0 = some sess' →
        pget sess'.players x = none := by
      intro st4 s2 hps hlk4 h2'
      by_cases hc : s2.inProgress = true ∧ s2.players.length < 2
      · rw [if_pos hc] at h2'
        rw [endGame_state_some "stopped_not_enough_players" none hlk4] at h2'
        rcases lookup_writeSession_cases h2' with ⟨hne, _⟩ | ⟨_, rfl⟩
        · exact absurd rfl hne
        · rw [pget_endRound, hps, hx]
          rfl
      · rw [if_neg hc, hlk4] at h2'
        cases h2'
        rw [hps]
        exact hx
    by_cases hgm : sock = s1.gm
    · rw [if_pos hgm] at h2
      dsimp only at h2
      rw [ite_pair_fst] at h2
      refine hmain (writeSession st3 sid0
        { s1 with gm := (s1.players.head?.map Player.id).getD "" })
        { s1 with gm := (s1.players.head?.map Player.id).getD "" } rfl ?_ h2
      rw [lookupSession_writeSession_self, hlk]
      rfl
    · rw [if_neg hgm] at h2
      dsimp only at h2
      rw [ite_pair_fst] at h2
      exact hmain st3 s1 rfl hlk h2

/-- Through the whole shared departure path, a surviving player's score
is unchanged. -/
theorem leavePrep_score (s : ServerState) (sid0 sock : String) (session : Session)
    (e1 : Emit) (hsl : lookupSession s sid0 = some session)
    (sid pid : String) (sess sess' : Session) (p p' : Player)
    (h1 : lookupSession s sid = some sess)
    (h2 : lookupSession (leaveTail (clearSockAttrs (roomLeave (writeSession s sid0
      { session with players := pdelete session.players sock }) sid0 sock) sock)
      sid0 sock { session with players := pdelete session.players sock } e1).1 sid
      = some sess')
    (h3 : pget sess.players pid = some p)
    (h4 : pget sess'.players pid = some p') :
    p'.score = p.score := by
  set s1 : Session := { session with players := pdelete session.players sock } with hs1
  set st3 := clearSockAttrs (roomLeave (writeSession s sid0 s1) sid0 sock) sock with hst3
  have hsess3 : st3.sessions = aupdate s.sessions sid0 s1 := by
    rw [hst3]
    simp
  have hlk3 : lookupSession st3 sid0 = some s1 := by
    rw [lookupSession_eq, hsess3, alookup_aupdate_self, ← lookupSession_eq, hsl]
    rfl
  by_cases hsid : sid = sid0
  · -- same session: the leaver is gone, other players keep their record
    subst hsid
    rw [hsl] at h1
    cases h1
    by_cases hpid : pid = sock
    · rw [hpid] at h4
      rw [leaveTail_pget_none st3 sid sock s1 e1 hlk3 sock
        (by rw [hs1]; exact pget_pdelete_self _ _) sess' h2] at h4
      cases h4
    · have h3' : pget s1.players pid = some p := by
        rw [hs1]
        show pget (pdelete session.players sock) pid = some p
        rw [pget_pdelete_ne _ _ _ hpid]
        exact h3
      exact leaveTail_score st3 sid sock s1 e1 hlk3 sid pid s1 sess' p p' hlk3 h2 h3' h4
  · -- another session: untouched by the departure
    have h1' : lookupSession st3 sid = some sess := by
      rw [lookupSession_eq, hsess3, alookup_aupdate_ne _ _ _ _ hsid, ← lookupSession_eq]
      exact h1
    exact leaveTail_score st3 sid0 sock s1 e1 hlk3 sid pid sess sess' p p' h1' h2 h3 h4

theorem lookupSession_congr_sessions {st st' : ServerState}
    (h : st'.sessions = st.sessions) (sid : String) :
    lookupSession st' sid = lookupSession st sid := by
  rw [lookupSession_eq, lookupSession_eq, h]

theorem alookup_aupdate_cases {β : Type} {l : List (String × β)} {k0 : String} {v : β}
    {k : String} {v' : β} (h : alookup (aupdate l k0 v) k = some v') :
    (k ≠ k0 ∧ alookup l k = some v') ∨ (k = k0 ∧ v' = v) := by
  by_cases hc : k = k0
  · right
    refine ⟨hc, ?_⟩
    rw [hc, alookup_aupdate_self] at h
    cases hl : alookup l k0 with
    | none => rw [hl] at h; cases h
    | some s =>
      rw [hl, Option.map_some'] at h
      exact (Option.some.inj h).symm
  · left
    rw [alookup_aupdate_ne _ _ _ _ hc] at h
    exact ⟨hc, h⟩

theorem alookup_append_single_cases {β : Type} {l : List (String × β)} {k0 : String}
    {v : β} {k : String} {v' : β} (h : alookup (l ++ [(k0, v)]) k = some v') :
    alookup l k = some v' ∨ (k = k0 ∧ v' = v) := by
  cases hl : alookup l k with
  | some s =>
    left
    rw [alookup_append_some [(k0, v)] hl] at h
    exact h
  | none =>
    right
    by_cases hc : k = k0
    · rw [hc] at h hl
      rw [alookup_append_self l k0 v hl] at h
      exact ⟨hc, (Option.some.inj h).symm⟩
    · rw [alookup_append_ne _ _ _ _ hc, hl] at h
      cases h

/-- **C8 (amended)** — Score changes under one serialized event, for a
player that is in the same session before and after the event: either
the score is unchanged, or it gains the fixed award of 10 because the
session's recorded winner is that player, or the player's record has
been replaced by a fresh zero-score record — which happens exactly when
an already-member socket re-issues `join_session`, so score
monotonicity as stated fails and holds only in the absence of
re-joins. -/
theorem step_score_change {s s' : ServerState} (hstep : Step s s') :
    ∀ (sid pid : String) (sess sess' : Session) (p p' : Player),
    lookupSession s sid = some sess →
    lookupSession s' sid = some sess' →
    pget sess.players pid = some p →
    pget sess'.players pid = some p' →
    p'.score = p.score ∨ (p'.score = p.score + 10 ∧ sess'.winner = some pid) ∨
      (p'.score = 0 ∧ p'.attemptsLeft = 0) := by
  intro sid pid sess sess' p p' h1 h2 h3 h4
  have triv : lookupSession s sid = some sess' →
      (p'.score = p.score ∨ (p'.score = p.score + 10 ∧ sess'.winner = some pid) ∨
        (p'.score = 0 ∧ p'.attemptsLeft = 0)) := by
    intro hx
    rw [h1] at hx
    cases hx
    rw [h3] at h4
    cases h4
    exact Or.inl rfl
  cases hstep with
  | createSession sock rawName suppliedId genId =>
    unfold handleCreateSession at h2
    dsimp only at h2
    cases hcand : lookupSession s (resolveCreateId suppliedId genId) with
    | some sOld =>
      rw [hcand] at h2
      exact triv h2
    | none =>
      rw [hcand] at h2
      rw [lookupSession_eq] at h2
      dsimp only at h2
      rw [sessions_roomJoin, sessions_insertSession] at h2
      rcases alookup_append_single_cases h2 with h2' | ⟨rfl, _⟩
      · exact triv h2'
      · rw [hcand] at h1
        cases h1
  | joinSession sock rawSid rawName =>
    unfold handleJoinSession at h2
    dsimp only at h2
    cases hjl : lookupSession s (jsTrim rawSid) with
    | none =>
      rw [hjl] at h2
      exact triv h2
    | some session =>
      rw [hjl] at h2
      dsimp only at h2
      by_cases hip : session.inProgress = true
      · rw [if_pos hip] at h2
        exact triv h2
      · rw [if_neg hip] at h2
        rw [lookupSession_eq] at h2
        dsimp only at h2
        rw [sessions_roomJoin, sessions_writeSession] at h2
        rcases alookup_aupdate_cases h2 with ⟨_, h2'⟩ | ⟨rfl, rfl⟩
        · exact triv h2'
        · rw [hjl] at h1
          cases h1
          rcases pget_pset_cases h4 with ⟨_, hold⟩ | ⟨_, rfl⟩
          · rw [h3] at hold
            cases hold
            exact Or.inl rfl
          · exact Or.inr (Or.inr ⟨rfl, rfl⟩)
  | leaveSession sock =>
    unfold handleLeaveSession at h2
    cases ha : alookup s.sockSession sock with
    | none =>
      rw [ha] at h2
      exact triv h2
    | some sid0 =>
      rw [ha] at h2
      dsimp only at h2
      unfold leaveSessionByUser at h2
      cases hsl : lookupSession s sid0 with
      | none =>
        rw [hsl] at h2
        exact triv h2
      | some session =>
        rw [hsl] at h2
        dsimp only at h2
        exact Or.inl (leavePrep_score s sid0 sock session _ hsl sid pid sess sess' p p'
          h1 h2 h3 h4)
  | disconnect sock =>
    unfold handleDisconnect at h2
    cases ha : alookup s.sockSession sock with
    | none =>
      rw [ha] at h2
      exact triv h2
    | some sid0 =>
      rw [ha] at h2
      dsimp only at h2
      unfold leaveSessionOnDisconnect at h2
      cases hsl : lookupSession s sid0 with
      | none =>
        rw [hsl] at h2
        exact triv h2
      | some session =>
        rw [hsl] at h2
        dsimp only at h2
        exact Or.inl (leavePrep_score s sid0 sock session _ hsl sid pid sess sess' p p'
          h1 h2 h3 h4)
  | setQuestion sock rawQ rawA =>
    unfold handleSetQuestion at h2
    cases ha : alookup s.sockSession sock with
    | none =>
      rw [ha] at h2
      exact triv h2
    | some sid0 =>
      rw [ha] at h2
      dsimp only at h2
      cases hsl : lookupSession s sid0 with
      | none =>
        rw [hsl] at h2
        exact triv h2
      | some session =>
        rw [hsl] at h2
        dsimp only at h2
        by_cases hq1 : session.gm ≠ sock
        · rw [if_pos hq1] at h2
          exact triv h2
        · rw [if_neg hq1] at h2
          by_cases hq2 : session.inProgress = true
          · rw [if_pos hq2] at h2
            exact triv h2
          · rw [if_neg hq2] at h2
            by_cases hq3 : jsTake 500 (jsTrim rawQ) = "" ∨ jsTake 200 (jsTrim rawA) = ""
            · rw [if_pos hq3] at h2
              exact triv h2
            · rw [if_neg hq3] at h2
              dsimp only at h2
              rcases lookup_writeSession_cases h2 with ⟨_, h2'⟩ | ⟨rfl, rfl⟩
              · exact triv h2'
              · rw [hsl] at h1
                cases h1
                rw [h3] at h4
                cases h4
                exact Or.inl rfl
  | startGame sock =>
    unfold handleStartGame at h2
    cases ha : alookup s.sockSession sock with
    | none =>
      rw [ha] at h2
      exact triv h2
    | some sid0 =>
      rw [ha] at h2
      dsimp only at h2
      cases hsl : lookupSession s sid0 with
      | none =>
        rw [hsl] at h2
        exact triv h2
      | some session =>
        rw [hsl] at h2
        dsimp only at h2
        by_cases hq1 : session.gm ≠ sock
        · rw [if_pos hq1] at h2
          exact triv h2
        · rw [if_neg hq1] at h2
          by_cases hq2 : session.inProgress = true
          · rw [if_pos hq2] at h2
            exact triv h2
          · rw [if_neg hq2] at h2
            by_cases hq3 : session.players.length < 2
            · rw [if_pos hq3] at h2
              exact triv h2
            · rw [if_neg hq3] at h2
              by_cases hq4 : jsFalsy session.question = true ∨ jsFalsy session.answer = true
              · rw [if_pos hq4] at h2
                exact triv h2
              · rw [if_neg hq4] at h2
                rw [lookupSession_eq] at h2
                dsimp only at h2
                rw [sessions_writeSession] at h2
                rcases alookup_aupdate_cases h2 with ⟨_, h2'⟩ | ⟨rfl, rfl⟩
                · exact triv h2'
                · rw [hsl] at h1
                  cases h1
                  dsimp only at h4
                  rw [pget_map_idpres sess.players
                      (fun p => { p with attemptsLeft := 3 }) (fun p => rfl),
                    h3, Option.map_some'] at h4
                  cases h4
                  exact Or.inl rfl
  | getSessionState sock =>
    unfold handleGetSessionState at h2
    cases ha : alookup s.sockSession sock with
    | none =>
      rw [ha] at h2
      exact triv h2
    | some sid0 =>
      rw [ha] at h2
      dsimp only at h2
      cases hsl : lookupSession s sid0 with
      | none =>
        rw [hsl] at h2
        exact triv h2
      | some session =>
        rw [hsl] at h2
        exact triv h2
  | timerFire t sid0 hmem =>
    rcases endGame_score s sid0 "time_expired" none sid pid sess sess' p p'
      h1 h2 h3 h4 with hres | ⟨_, hw, _⟩
    · exact Or.inl hres
    · cases hw
  | guess sock rawText =>
    unfold handleGuess at h2
    cases ha : alookup s.sockSession sock with
    | none =>
      rw [ha] at h2
      exact triv h2
    | some sid0 =>
      rw [ha] at h2
      dsimp only at h2
      cases hsl : lookupSession s sid0 with
      | none =>
        rw [hsl] at h2
        exact triv h2
      | some session =>
        rw [hsl] at h2
        dsimp only at h2
        by_cases hq1 : ¬ session.inProgress = true
        · rw [if_pos hq1] at h2
          exact triv h2
        · rw [if_neg hq1] at h2
          cases hpl : pget session.players sock with
          | none =>
            rw [hpl] at h2
            exact triv h2
          | some player =>
            rw [hpl] at h2
            dsimp only at h2
            by_cases hq2 : player.attemptsLeft = 0
            · rw [if_pos hq2] at h2
              exact triv h2
            · rw [if_neg hq2] at h2
              by_cases hq3 : jsTrim rawText = ""
              · rw [if_pos hq3] at h2
                exact triv h2
              · rw [if_neg hq3] at h2
                -- the decremented intermediate state
                set p1 : Player := { player with attemptsLeft := player.attemptsLeft - 1 }
                  with hp1
                set s1 : Session := { session with players := pset session.players p1 }
                  with hs1g
                set st1 := writeSession s sid0 s1 with hst1
                have hlk1 : lookupSession st1 sid0 = some s1 := by
                  rw [hst1, lookupSession_writeSession_self, hsl]
                  rfl
                have hmid : ∀ (sessm : Session), lookupSession st1 sid = some sessm →
                    ∃ pm, pget sessm.players pid = some pm ∧ pm.score = p.score := by
                  intro sessm hm
                  rcases lookup_writeSession_cases hm with ⟨_, hm'⟩ | ⟨rfl, rfl⟩
                  · rw [h1] at hm'
                    cases hm'
                    exact ⟨p, h3, rfl⟩
                  · rw [hsl] at h1
                    cases h1
                    by_cases hpid : pid = p1.id
                    · refine ⟨p1, ?_, ?_⟩
                      · rw [hs1g]
                        show pget (pset sess.players p1) pid = some p1
                        rw [hpid, pget_pset_self]
                      · have hpp : pget sess.players pid = some player := by
                          rw [hpid]
                          show pget sess.players player.id = some player
                          have hpi := pget_id hpl
                          rw [hpi]
                          exact hpl
                        rw [h3] at hpp
                        cases hpp
                        rfl
                    · refine ⟨p, ?_, rfl⟩
                      rw [hs1g]
                      show pget (pset sess.players p1) pid = some p
                      rw [pget_pset_ne _ _ _ hpid]
                      exact h3
                by_cases hq4 : s1.answer = some (jsTrim (jsToLower (jsTrim rawText)))
                · rw [if_pos hq4] at h2
                  by_cases hq5 : s1.winner = none
                  · rw [if_pos hq5] at h2
                    dsimp only at h2
                    -- winner recorded, then the round ends with the award
                    set s2 : Session := { s1 with winner := some sock } with hs2
                    set st2 := writeSession st1 sid0 s2 with hst2
                    have hmid2 : ∀ (sessm : Session), lookupSession st2 sid = some sessm →
                        ∃ pm, pget sessm.players pid = some pm ∧ pm.score = p.score := by
                      intro sessm hm
                      rcases lookup_writeSession_cases hm with ⟨_, hm'⟩ | ⟨rfl, rfl⟩
                      · exact hmid sessm hm'
                      · obtain ⟨pm, hpm, hpms⟩ := hmid s1 hlk1
                        exact ⟨pm, hpm, hpms⟩
                    have hlk2' : lookupSession st2 sid0 = some s2 := by
                      rw [hst2, lookupSession_writeSession_self, hlk1]
                      rfl
                    cases hm2 : lookupSession st2 sid with
                    | none =>
                      -- `endGame` never revives a deleted id, so the final lookup
                      -- would be `none` too: contradiction with `h2`
                      by_cases hsid : sid = sid0
                      · rw [hsid, hlk2'] at hm2
                        cases hm2
                      · rw [endGame_state_some "correct_guess" (some sock) hlk2'] at h2
                        rw [lookupSession_writeSession_ne _ _ _ _ hsid] at h2
                        have hstc : lookupSession (match s2.timer with
                            | some t => clearPending st2 t
                            | none => st2) sid = lookupSession st2 sid := by
                          cases s2.timer <;> rfl
                        rw [hstc, hm2] at h2
                        cases h2
                    | some sessm =>
                      obtain ⟨pm, hpm, hpms⟩ := hmid2 sessm hm2
                      rcases endGame_score st2 sid0 "correct_guess" (some sock) sid pid
                        sessm sess' pm p' hm2 h2 hpm h4 with hres | ⟨hres, hwit, hwin⟩
                      · exact Or.inl (hres.trans hpms)
                      · exact Or.inr (Or.inl ⟨by rw [hres, hpms], hwin⟩)
                  · rw [if_neg hq5] at h2
                    obtain ⟨pm, hpm, hpms⟩ := hmid sess' h2
                    rw [hpm] at h4
                    cases h4
                    exact Or.inl hpms
                · rw [if_neg hq4] at h2
                  by_cases hq6 : p1.attemptsLeft = 0
                  · rw [if_pos hq6] at h2
                    obtain ⟨pm, hpm, hpms⟩ := hmid sess' h2
                    rw [hpm] at h4
                    cases h4
                    exact Or.inl hpms
                  · rw [if_neg hq6] at h2
                    obtain ⟨pm, hpm, hpms⟩ := hmid sess' h2
                    rw [hpm] at h4
                    cases h4
                    exact Or.inl hpms

/-! ### Comparing the two departure paths (claim C5) -/

/-- Remove one socket from an emission's recipient list: the projection
of a trace onto what everyone else receives. -/
def dropRecip (sock : String) (e : Emit) : Emit :=
  { e with recipients := e.recipients.filter (fun x => x ≠ sock) }

theorem roomMembers_roomLeave_self (st : ServerState) (sid sock : String) :
    roomMembers (roomLeave st sid sock)
      sid = (roomMembers st sid).filter (fun x => x ≠ sock) := by
  show (alookup (aupdate st.rooms sid ((roomMembers st sid).filter (fun x => x ≠ sock)))
    sid).getD [] = _
  rw [alookup_aupdate_self]
  cases h : alookup st.rooms sid with
  | none => simp [roomMembers, h]
  | some ms => simp [roomMembers, h]

theorem filter_ne_idem (l : List String) (sock : String) :
    (l.filter (fun x => x ≠ sock)).filter (fun x => x ≠ sock)
      = l.filter (fun x => x ≠ sock) := by
  induction l with
  | nil => rfl
  | cons a tl ih =>
    by_cases ha : a = sock
    · simp [List.filter_cons, ha, ih]
    · simp [List.filter_cons, ha, ih]

/-- The resulting state of `leaveTail` does not depend on the departure
notice it is handed. -/
theorem leaveTail_fst_emit (st3 : ServerState) (sid sock : String) (s1 : Session)
    (e1 e1' : Emit) :
    (leaveTail st3 sid sock s1 e1).1 = (leaveTail st3 sid sock s1 e1').1 := by
  unfold leaveTail
  by_cases h1 : s1.players.isEmpty
  · rw [if_pos h1, if_pos h1]
  · rw [if_neg h1, if_neg h1]
    by_cases hgm : sock = s1.gm
    · rw [if_pos hgm]
      dsimp only
      split <;> rfl
    · rw [if_neg hgm]
      dsimp only
      split <;> rfl

/-- The emission trace of `leaveTail` is the handed departure notice
followed by a tail that does not depend on it. -/
theorem leaveTail_map_emits (f : Emit → Emit) (st3 : ServerState) (sid sock : String)
    (s1 : Session) (e1 e1' : Emit) (h : f e1 = f e1') :
    (leaveTail st3 sid sock s1 e1).2.map f = (leaveTail st3 sid sock s1 e1').2.map f := by
  unfold leaveTail
  by_cases h1 : s1.players.isEmpty
  · rw [if_pos h1, if_pos h1]
    dsimp only
    rw [List.map_cons, List.map_cons, h]
  · rw [if_neg h1, if_neg h1]
    by_cases hgm : sock = s1.gm
    · rw [if_pos hgm]
      dsimp only
      split <;> simp [h]
    · rw [if_neg hgm]
      dsimp only
      split <;> simp [h]

/-! ### Concrete states used by witnesses and counterexamples -/

/-- "A" creates session "s1". -/
def createdState : ServerState := (handleCreateSession initState "A" "alice" none "s1").1

/-- … "B" joins it … -/
def joinedState : ServerState := (handleJoinSession createdState "B" "s1" "bob").1

/-- … the GM sets a question … -/
def questionState : ServerState := (handleSetQuestion joinedState "A" "Capital?" "Paris").1

/-- … the round starts … -/
def startedState : ServerState := (handleStartGame questionState "A").1

/-- … and "B" wins with a sloppily-typed correct guess. -/
def wonState : ServerState := (handleGuess startedState "B" " Paris ").1

/-- The session record of `wonState`: "B" holds the 10-point award. -/
def wonSession : Session :=
  ⟨"s1", [⟨"A", "alice", 0, 0⟩, ⟨"B", "bob", 10, 0⟩], "B", none, none, none,
   false, none, some "B"⟩

/-- The session record after "B" re-joins `wonState`: the score is gone. -/
def rejoinedSession : Session :=
  ⟨"s1", [⟨"A", "alice", 0, 0⟩, ⟨"B", "bob", 0, 0⟩], "B", none, none, none,
   false, none, some "B"⟩

/-- A hypothetical mid-round state whose `winner` is already set, the
configuration the guess handler's winner guard (server.js line 411)
defends against. -/
def racingState : ServerState :=
  ⟨[("s1", ⟨"s1", [⟨"A", "alice", 0, 1⟩, ⟨"B", "bob", 0, 3⟩], "A", some "Q",
      some "paris", some "Paris", true, none, some "A"⟩)],
   [], 0, [("s1", ["A", "B"])], [("A", "s1"), ("B", "s1")],
   [("A", "alice"), ("B", "bob")]⟩

/-- The session stored in `racingState`. -/
def racingSession : Session :=
  ⟨"s1", [⟨"A", "alice", 0, 1⟩, ⟨"B", "bob", 0, 3⟩], "A", some "Q",
   some "paris", some "Paris", true, none, some "A"⟩

/-! ### Claim C1 -/

/-- **C1** — Single-winner resolution.  When a guess is evaluated in an
in-progress round whose `winner` is already set, a correct guess is a
no-op past the attempt decrement: the whole server state changes only by
that player's `attemptsLeft` going down by one, so `winner` never
changes, no score is awarded and the round does not end a second time
(the emissions carry no `game_ended`), matching the first-decider-wins
rule of the spec. -/
theorem c1_winner_set_guess_only_consumes_attempt
    (st : ServerState) (sid sock text : String) (session : Session) (player : Player)
    (w : String)
    (ha : alookup st.sockSession sock = some sid)
    (hl : lookupSession st sid = some session)
    (hip : session.inProgress = true)
    (hw : session.winner = some w)
    (hp : pget session.players sock = some player)
    (hat : player.attemptsLeft ≠ 0)
    (hg : jsTrim text ≠ "")
    (hans : session.answer = some (jsTrim (jsToLower (jsTrim text)))) :
    (handleGuess st sock text).1 = writeSession st sid
      { session with players := pset session.players { player with attemptsLeft := player.attemptsLeft - 1 } } ∧
    (lookupSession (handleGuess st sock text).1 sid).map Session.winner
      = some (some w) ∧
    (lookupSession (handleGuess st sock text).1 sid).map Session.inProgress
      = some true ∧
    ∀ e ∈ (handleGuess st sock text).2,
      ∀ (reason : String) (wf : Option (String × Option String)) (ans : Option String),
        e.payload ≠ .gameEnded reason wf ans := by
  have hcond : ¬ ¬ session.inProgress = true := by
    rw [hip]
    simp
  have hwinner : ¬ ({ session with players := pset session.players { player with attemptsLeft := player.attemptsLeft - 1 } } : Session).winner = none := by
    show ¬ session.winner = none
    rw [hw]
    simp
  have hres : handleGuess st sock text = (writeSession st sid
      { session with players := pset session.players { player with attemptsLeft := player.attemptsLeft - 1 } },
      [⟨roomMembers (writeSession st sid
          { session with players := pset session.players { player with attemptsLeft := player.attemptsLeft - 1 } }) sid,
        .systemMessage (narrationText player.name (jsTrim text)
          (player.attemptsLeft - 1))⟩,
       broadcastSessionState (writeSession st sid
          { session with players := pset session.players { player with attemptsLeft := player.attemptsLeft - 1 } })
          { session with players := pset session.players { player with attemptsLeft := player.attemptsLeft - 1 } }]) := by
    unfold handleGuess
    rw [ha]
    dsimp only
    rw [hl]
    dsimp only
    rw [if_neg hcond, hp]
    dsimp only
    rw [if_neg hat, if_neg hg]
    rw [if_pos (by show session.answer = _; exact hans), if_neg hwinner]
  refine ⟨?_, ?_, ?_, ?_⟩
  · rw [hres]
  · rw [hres]
    dsimp only
    rw [lookupSession_writeSession_self, hl]
    show some session.winner = some (some w)
    rw [hw]
  · rw [hres]
    dsimp only
    rw [lookupSession_writeSession_self, hl]
    show some session.inProgress = some true
    rw [hip]
  · rw [hres]
    intro e he reason wf ans
    rcases List.mem_cons.mp he with rfl | he'
    · simp [Payload.systemMessage.injEq]
    · rcases List.mem_cons.mp he' with rfl | he''
      · simp [broadcastSessionState]
      · cases he''

/-! ### Claim C2 -/

/-- **C2** — GM membership invariant: in every reachable server state,
every live session with a non-empty `players` map has its `gm` equal to
the connection id of one of its players; reachability means this is
preserved by create, join, leave, disconnect, set_question, start,
guess, round end and timer expiry alike. -/
theorem c2_gm_membership (st : ServerState) (h : Reachable st) :
    ∀ e ∈ st.sessions, e.2.players ≠ [] → e.2.gm ∈ e.2.players.map Player.id :=
  (reachable_inv st h).1

/-- The single session of `createdState`. -/
def createdSession : Session :=
  ⟨"s1", [⟨"A", "alice", 0, 0⟩], "A", none, none, none, false, none, none⟩

/-- Witness for C2 at the reachable state in which "A" created "s1". -/
theorem c2_witness : ("A" : String) ∈ createdSession.players.map Player.id :=
  c2_gm_membership createdState
    (Reachable.step Reachable.init (Step.createSession initState "A" "alice" none "s1"))
    ("s1", createdSession) (by decide) (by decide)

/-- A mid-round state in which "B" has exhausted the attempt quota. -/
def exhaustedState : ServerState :=
  ⟨[("s1", ⟨"s1", [⟨"A", "alice", 0, 3⟩, ⟨"B", "bob", 0, 0⟩], "A", some "Q",
      some "paris", some "Paris", true, some 0, none⟩)],
   [(0, "s1")], 1, [("s1", ["A", "B"])], [("A", "s1"), ("B", "s1")],
   [("A", "alice"), ("B", "bob")]⟩

/-! ### Claim C3 -/

/-- **C3** — Attempt accounting for guesses in an in-progress round:
(1) with `attemptsLeft = 0` the guess is rejected with the
no-attempts-left error and the state — hence the attempt count — is
completely unchanged; (2) otherwise, for non-empty trimmed text, the
attempt is consumed before the answer comparison, regardless of
correctness: the guess narration emitted first already carries
`attemptsLeft - 1`; (3) and on an incorrect guess the resulting state is
exactly the old one with that player's `attemptsLeft` decremented by
one. -/
theorem c3_attempt_accounting :
    (∀ (st : ServerState) (sid sock text : String) (session : Session) (player : Player),
      alookup st.sockSession sock = some sid →
      lookupSession st sid = some session →
      session.inProgress = true →
      pget session.players sock = some player →
      player.attemptsLeft = 0 →
      handleGuess st sock text = (st, [⟨[sock], .errorMessage "No attempts left."⟩]))
    ∧ (∀ (st : ServerState) (sid sock text : String) (session : Session) (player : Player),
      alookup st.sockSession sock = some sid →
      lookupSession st sid = some session →
      session.inProgress = true →
      pget session.players sock = some player →
      player.attemptsLeft ≠ 0 →
      jsTrim text ≠ "" →
      (handleGuess st sock text).2.head? = some ⟨roomMembers st sid,
        .systemMessage (narrationText player.name (jsTrim text)
          (player.attemptsLeft - 1))⟩)
    ∧ (∀ (st : ServerState) (sid sock text : String) (session : Session) (player : Player),
      alookup st.sockSession sock = some sid →
      lookupSession st sid = some session →
      session.inProgress = true →
      pget session.players sock = some player →
      player.attemptsLeft ≠ 0 →
      jsTrim text ≠ "" →
      session.answer ≠ some (jsTrim (jsToLower (jsTrim text))) →
      (handleGuess st sock text).1 = writeSession st sid
        { session with players := pset session.players { player with attemptsLeft := player.attemptsLeft - 1 } }) := by
  refine ⟨?_, ?_, ?_⟩
  · intro st sid sock text session player ha hl hip hp hat
    have hcond : ¬ ¬ session.inProgress = true := by
      rw [hip]
      simp
    unfold handleGuess
    rw [ha]
    dsimp only
    rw [hl]
    dsimp only
    rw [if_neg hcond, hp]
    dsimp only
    rw [if_pos hat]
  · intro st sid sock text session player ha hl hip hp hat hg
    have hcond : ¬ ¬ session.inProgress = true := by
      rw [hip]
      simp
    unfold handleGuess
    rw [ha]
    dsimp only
    rw [hl]
    dsimp only
    rw [if_neg hcond, hp]
    dsimp only
    rw [if_neg hat, if_neg hg]
    by_cases hans : session.answer = some (jsTrim (jsToLower (jsTrim text)))
    · rw [if_pos (by show session.answer = _; exact hans)]
      by_cases hwin : session.winner = none
      · rw [if_pos (by show session.winner = none; exact hwin)]
        rfl
      · rw [if_neg (by show ¬ session.winner = none; exact hwin)]
        rfl
    · rw [if_neg (by show ¬ session.answer = _; exact hans)]
      by_cases hq6 : player.attemptsLeft - 1 = 0
      · rw [if_pos (by show player.attemptsLeft - 1 = 0; exact hq6)]
        rfl
      · rw [if_neg (by show ¬ player.attemptsLeft - 1 = 0; exact hq6)]
        rfl
  · intro st sid sock text session player ha hl hip hp hat hg hans
    have hcond : ¬ ¬ session.inProgress = true := by
      rw [hip]
      simp
    unfold handleGuess
    rw [ha]
    dsimp only
    rw [hl]
    dsimp only
    rw [if_neg hcond, hp]
    dsimp only
    rw [if_neg hat, if_neg hg]
    rw [if_neg (by show ¬ session.answer = _; exact hans)]
    by_cases hq6 : player.attemptsLeft - 1 = 0
    · rw [if_pos (by show player.attemptsLeft - 1 = 0; exact hq6)]
    · rw [if_neg (by show ¬ player.attemptsLeft - 1 = 0; exact hq6)]

/-- Witness for C3 at concrete states: a player out of attempts is
rejected without a decrement, and a wrong guess is narrated with the
decremented count. -/
theorem c3_witness :
    handleGuess exhaustedState "B" "x" = (exhaustedState,
      [⟨["B"], .errorMessage "No attempts left."⟩]) ∧
    (handleGuess startedState "B" "London").2.head? = some ⟨["A", "B"],
      .systemMessage (narrationText "bob" "London" 2)⟩ :=
  ⟨(c3_attempt_accounting.1 exhaustedState "s1" "B" "x"
      ⟨"s1", [⟨"A", "alice", 0, 3⟩, ⟨"B", "bob", 0, 0⟩], "A", some "Q",
       some "paris", some "Paris", true, some 0, none⟩ ⟨"B", "bob", 0, 0⟩
      (by decide) (by decide) (by decide) (by decide) (by decide)),
   (c3_attempt_accounting.2.1 startedState "s1" "B" "London"
      ⟨"s1", [⟨"A", "alice", 0, 3⟩, ⟨"B", "bob", 0, 3⟩], "A", some "Capital?",
       some "paris", some "Paris", true, some 0, none⟩
      ⟨"B", "bob", 0, 3⟩
      (by decide) (by decide) (by decide) (by decide) (by decide) (by decide))⟩

/-! ### Claim C4 -/

/-- **C4** — GM rotation at round end: whatever the reason and whatever
the winner, `endGame` reassigns `gm` to `rotateGm` of the join-ordered
id list, and `rotateGm` is exactly "the player immediately following the
outgoing GM in join order, wrapping at the end, first player when the
outgoing GM is no longer present". -/
theorem c4_gm_rotation (st : ServerState) (sid reason : String) (w : Option String)
    (session : Session)
    (hl : lookupSession st sid = some session)
    (hne : session.players ≠ []) :
    (lookupSession (endGame st sid reason w).1 sid).map Session.gm
      = some (rotateGm (session.players.map Player.id) session.gm) ∧
    (∀ i : Nat, (session.players.map Player.id).Nodup →
      (session.players.map Player.id)[i]? = some session.gm →
      some (rotateGm (session.players.map Player.id) session.gm)
        = (session.players.map Player.id)[(i + 1) %
            (session.players.map Player.id).length]?) ∧
    (session.gm ∉ session.players.map Player.id →
      some (rotateGm (session.players.map Player.id) session.gm)
        = (session.players.map Player.id)[0]?) := by
  have hlen : 0 < (session.players.map Player.id).length := by
    rw [List.length_map]
    exact List.length_pos.mpr hne
  refine ⟨?_, ?_, ?_⟩
  · rw [endGame_state_some reason w hl]
    rw [lookupSession_writeSession_self]
    have hstc : lookupSession (match session.timer with
        | some t => clearPending st t
        | none => st) sid = lookupSession st sid := by
      cases session.timer <;> rfl
    rw [hstc, hl]
    show some (endRound session w).gm = _
    rw [show (endRound session w).gm
      = rotateGm ((awardWinner session.players w).map Player.id) session.gm from rfl]
    rw [awardWinner_ids]
  · intro i hnd hgi
    obtain ⟨hi, hie⟩ := List.getElem?_eq_some.mp hgi
    have hmem : session.gm ∈ session.players.map Player.id := hie ▸ List.getElem_mem hi
    have hio : (session.players.map Player.id).indexOf session.gm < _ :=
      List.indexOf_lt_length.mpr hmem
    have hidx : (session.players.map Player.id).indexOf session.gm = i := by
      refine (@List.Nodup.getElem_inj_iff String (session.players.map Player.id) hnd
        (List.indexOf session.gm (session.players.map Player.id)) hio i hi).mp ?_
      rw [List.getElem_indexOf hio, hie]
    have hlt : (i + 1) % (session.players.map Player.id).length
        < (session.players.map Player.id).length := Nat.mod_lt _ hlen
    unfold rotateGm
    rw [if_pos hlen, if_pos hmem, hidx]
    rw [List.getD_eq_getElem _ _ hlt, List.getElem?_eq_getElem hlt]
  · intro hnm
    unfold rotateGm
    rw [if_pos hlen, if_neg hnm]
    rw [List.getD_eq_getElem _ _ hlen, List.getElem?_eq_getElem hlen]

/-- Witness for C4: ending a round in a three-player session with the GM
in the middle of the join order hands the GM role to the next player. -/
theorem c4_witness :
    (lookupSession (endGame (⟨[("s1", ⟨"s1",
        [⟨"A", "al", 0, 0⟩, ⟨"B", "bo", 0, 0⟩, ⟨"C", "ce", 0, 0⟩], "B", none, none,
        none, false, none, none⟩)], [], 0, [], [], []⟩ : ServerState)
      "s1" "time_expired" none).1 "s1").map Session.gm = some (rotateGm ["A", "B", "C"] "B") ∧
    some (rotateGm ["A", "B", "C"] "B") = (["A", "B", "C"] : List String)[2 % 3]? :=
  ⟨(c4_gm_rotation _ "s1" "time_expired" none
      ⟨"s1", [⟨"A", "al", 0, 0⟩, ⟨"B", "bo", 0, 0⟩, ⟨"C", "ce", 0, 0⟩], "B", none,
       none, none, false, none, none⟩ (by decide) (by decide)).1,
   (c4_gm_rotation (⟨[("s1", ⟨"s1",
        [⟨"A", "al", 0, 0⟩, ⟨"B", "bo", 0, 0⟩, ⟨"C", "ce", 0, 0⟩], "B", none, none,
        none, false, none, none⟩)], [], 0, [], [], []⟩ : ServerState) "s1" "time_expired" none
      ⟨"s1", [⟨"A", "al", 0, 0⟩, ⟨"B", "bo", 0, 0⟩, ⟨"C", "ce", 0, 0⟩], "B", none,
       none, none, false, none, none⟩ (by decide) (by decide)).2.1 1 (by decide) (by decide)⟩

/-! ### Claim C7 -/

/-- **C7** — No stale timer: in every reachable state, every armed,
not-yet-fired-or-cancelled round-expiry timer targets a live session
that is still in progress and whose `timer` field is exactly this timer.
Every round-end path and every session-deletion path cancels the timer
(removes it from `pending`), so no expiry can hit a session that has
moved on or been deleted. -/
theorem c7_pending_timer_live (st : ServerState) (h : Reachable st) :
    ∀ q ∈ st.pending,
      (lookupSession st q.2).map Session.timer = some (some q.1) ∧
      (lookupSession st q.2).map Session.inProgress = some true := by
  intro q hq
  obtain ⟨s0, hs0, hs0t, hs0p⟩ := (reachable_inv st h).2.2.2.1 q hq
  rw [hs0]
  constructor
  · show some s0.timer = some (some q.1)
    rw [hs0t]
  · show some s0.inProgress = some true
    rw [hs0p]

/-- Witness for C7 at the reachable state in which the round just
started: its pending timer 0 targets the live, in-progress session. -/
theorem c7_witness :
    (lookupSession startedState "s1").map Session.timer = some (some 0) ∧
    (lookupSession startedState "s1").map Session.inProgress = some true :=
  c7_pending_timer_live startedState
    (Reachable.step (Reachable.step (Reachable.step (Reachable.step Reachable.init
      (Step.createSession initState "A" "alice" none "s1"))
      (Step.joinSession createdState "B" "s1" "bob"))
      (Step.setQuestion joinedState "A" "Capital?" "Paris"))
      (Step.startGame questionState "A"))
    (0, "s1") (by decide)

/-! ### Claim C5 -/

/-- A plain idle two-player session with its room and socket attributes. -/
def idleTwoState : ServerState :=
  ⟨[("s1", ⟨"s1", [⟨"A", "alice", 0, 0⟩, ⟨"B", "bob", 0, 0⟩], "A", none, none, none,
      false, none, none⟩)],
   [], 0, [("s1", ["A", "B"])], [("A", "s1"), ("B", "s1")],
   [("A", "alice"), ("B", "bob")]⟩

/-- **C5 counterexample** — the two departure paths do not produce the
same notifications: the explicit-leave path emits the departure notice
before removing the player from the room (the departing socket receives
it), the disconnect path removes first and then emits (it does not), so
the traces differ at their first emission. -/
theorem c5_counterexample :
    (leaveSessionByUser idleTwoState "s1" "A").2
      ≠ (leaveSessionOnDisconnect idleTwoState "A" "s1").2 := by
  decide

/-- **C5 (amended)** — Leave/disconnect equivalence up to the departing
player: for every state, an explicit leave and a transport disconnection
produce the identical resulting server state, and identical
notifications, in the same order, to every socket other than the
departing one.  They differ only in whether the departing socket itself
receives the departure notice: explicit leave notifies before the
removal from the room, disconnect removes first. -/
theorem c5_leave_disconnect_equiv (st : ServerState) (sid sock : String) :
    (leaveSessionByUser st sid sock).1 = (leaveSessionOnDisconnect st sock sid).1 ∧
    (leaveSessionByUser st sid sock).2.map (dropRecip sock)
      = (leaveSessionOnDisconnect st sock sid).2.map (dropRecip sock) := by
  unfold leaveSessionByUser leaveSessionOnDisconnect
  cases hl : lookupSession st sid with
  | none => exact ⟨rfl, rfl⟩
  | some session =>
    dsimp only
    constructor
    · exact leaveTail_fst_emit _ _ _ _ _ _
    · refine leaveTail_map_emits _ _ _ _ _ _ _ ?_
      have hroom : roomMembers (clearSockAttrs (roomLeave (writeSession st sid
          { session with players := pdelete session.players sock }) sid sock) sock) sid
          = (roomMembers st sid).filter (fun x => x ≠ sock) := by
        show roomMembers (roomLeave (writeSession st sid
          { session with players := pdelete session.players sock }) sid sock) sid = _
        rw [roomMembers_roomLeave_self]
        rfl
      unfold dropRecip
      rw [hroom, filter_ne_idem]

/-! ### Claim C6 -/

theorem sockSession_endGame (st : ServerState) (sid reason : String)
    (w : Option String) : ((endGame st sid reason w).1).sockSession = st.sockSession := by
  unfold endGame
  cases hl : lookupSession st sid with
  | none => rfl
  | some session =>
    dsimp only
    cases session.timer <;> rfl

theorem sockSession_leaveTail (st3 : ServerState) (sid sock : String) (s1 : Session)
    (e1 : Emit) : ((leaveTail st3 sid sock s1 e1).1).sockSession = st3.sockSession := by
  unfold leaveTail
  by_cases h1 : s1.players.isEmpty
  · rw [if_pos h1]
    cases s1.timer <;> rfl
  · rw [if_neg h1]
    by_cases hgm : sock = s1.gm
    · rw [if_pos hgm]
      dsimp only
      split
      · rw [sockSession_endGame, sockSession_writeSession]
      · rfl
    · rw [if_neg hgm]
      dsimp only
      split
      · rw [sockSession_endGame]
      · rfl

/-- **C6 counterexample** — a second `leave_session` for a player who
already left is not error-free: the client receives the error message
"You are not currently in a session.". -/
theorem c6_counterexample :
    (handleLeaveSession (handleLeaveSession idleTwoState "A").1 "A").2
      = [⟨["A"], .errorMessage "You are not currently in a session."⟩] := by
  decide

/-- **C6 (amended)** — Departure idempotence, as the code implements it:
for a socket with no recorded session (the state after a completed
departure), a repeated `leave_session` performs no state change but
emits the error message "You are not currently in a session." to the
requester, while a `disconnect` is a completely silent no-op; and a
completed `leaveSessionByUser` on a live session always clears the
socket's recorded session, so repeated departures always take these
no-op branches. -/
theorem c6_departure_idempotent :
    (∀ (st : ServerState) (sock : String), alookup st.sockSession sock = none →
      handleLeaveSession st sock
        = (st, [⟨[sock], .errorMessage "You are not currently in a session."⟩]) ∧
      handleDisconnect st sock = (st, []))
    ∧ (∀ (st : ServerState) (sid sock : String), lookupSession st sid ≠ none →
      alookup ((leaveSessionByUser st sid sock).1).sockSession sock = none) := by
  constructor
  · intro st sock h
    constructor
    · unfold handleLeaveSession
      rw [h]
    · unfold handleDisconnect
      rw [h]
  · intro st sid sock h
    unfold leaveSessionByUser
    cases hl : lookupSession st sid with
    | none => exact absurd hl h
    | some session =>
      dsimp only
      rw [sockSession_leaveTail]
      exact alookup_adelete_self _ _

/-- Witness for C6 (amended): concrete second-departure no-ops, and the
departure of "A" clearing its recorded session. -/
theorem c6_witness :
    (handleLeaveSession initState "Z"
        = (initState, [⟨["Z"], .errorMessage "You are not currently in a session."⟩]) ∧
      handleDisconnect initState "Z" = (initState, [])) ∧
    alookup ((leaveSessionByUser idleTwoState "s1" "A").1).sockSession "A" = none :=
  ⟨c6_departure_idempotent.1 initState "Z" (by decide),
   c6_departure_idempotent.2 idleTwoState "s1" "A" (by decide)⟩

/-! ### Claim C8 -/

/-- **C8 counterexample** — `join_session` from a socket that is already
a member replaces its player record: after "B" won 10 points (a
reachable state, built here by replaying create, join, set_question,
start and a winning guess), a re-join resets B's score from 10 to 0, so
a score is not monotone under every operation. -/
theorem c8_counterexample :
    ((lookupSession (handleJoinSession wonState "B" "s1" "bob").1 "s1").bind
      (fun s => pget s.players "B")).map Player.score = some 0 ∧
    ((lookupSession wonState "s1").bind (fun s => pget s.players "B")).map Player.score
      = some 10 := by
  decide

/-- Witness for C8 (amended) at the concrete re-join step: the
score-change disjunction holds with its replacement branch. -/
theorem c8_witness :
    (⟨"B", "bob", 0, 0⟩ : Player).score = (⟨"B", "bob", 10, 0⟩ : Player).score ∨
    ((⟨"B", "bob", 0, 0⟩ : Player).score = (⟨"B", "bob", 10, 0⟩ : Player).score + 10 ∧
      rejoinedSession.winner = some "B") ∨
    ((⟨"B", "bob", 0, 0⟩ : Player).score = 0 ∧
      (⟨"B", "bob", 0, 0⟩ : Player).attemptsLeft = 0) :=
  step_score_change (Step.joinSession wonState "B" "s1" "bob") "s1" "B"
    wonSession rejoinedSession ⟨"B", "bob", 10, 0⟩ ⟨"B", "bob", 0, 0⟩
    (by decide) (by decide) (by decide) (by decide)

/-! ### Claim C9 -/

/-- "Z" creates session "s2". -/
def c9aState : ServerState := (handleCreateSession initState "Z" "zoe" none "s2").1

/-- … "X" creates session "s1" … -/
def c9bState : ServerState := (handleCreateSession c9aState "X" "xena" none "s1").1

/-- … and "X" then joins "s2", which overwrites the one
`socket.sessionId` slot and orphans X's membership of "s1". -/
def c9cState : ServerState := (handleJoinSession c9bState "X" "s2" "xena").1

/-- **C9 counterexample** — after "X" disconnects, the live session "s1"
(which X created before joining "s2") still contains X's player record:
disconnect only cleans up the most recently recorded session. -/
theorem c9_counterexample :
    ((lookupSession (handleDisconnect c9cState "X").1 "s1").map
      (fun s => (pget s.players "X").isSome)) = some true := by
  decide

/-- **C9 (amended)** — Player destruction on departure holds only for
the session currently recorded on the connection: after a disconnect,
the session recorded in `socket.sessionId` (when it is still live) no
longer contains the connection's player record.  Records the connection
left behind in previously joined sessions are not cleaned up. -/
theorem c9_disconnect_clears_current_session (st : ServerState) (sock sid : String)
    (sess' : Session)
    (ha : alookup st.sockSession sock = some sid)
    (h2 : lookupSession (handleDisconnect st sock).1 sid = some sess') :
    pget sess'.players sock = none := by
  unfold handleDisconnect at h2
  rw [ha] at h2
  dsimp only at h2
  unfold leaveSessionOnDisconnect at h2
  cases hl : lookupSession st sid with
  | none =>
    rw [hl] at h2
    replace h2 : lookupSession st sid = some sess' := h2
    rw [hl] at h2
    cases h2
  | some session =>
    rw [hl] at h2
    dsimp only at h2
    set s1 : Session := { session with players := pdelete session.players sock } with hs1
    set st3 := clearSockAttrs (roomLeave (writeSession st sid s1) sid sock) sock with hst3
    have hsess3 : st3.sessions = aupdate st.sessions sid s1 := by
      rw [hst3]
      simp
    have hlk3 : lookupSession st3 sid = some s1 := by
      rw [lookupSession_eq, hsess3, alookup_aupdate_self, ← lookupSession_eq, hl]
      rfl
    refine leaveTail_pget_none st3 sid sock s1 _ hlk3 sock ?_ sess' h2
    rw [hs1]
    exact pget_pdelete_self _ _

/-- The session "s2" after "X" disconnects from `c9cState`. -/
def c9AfterSession : Session :=
  ⟨"s2", [⟨"Z", "zoe", 0, 0⟩], "Z", none, none, none, false, none, none⟩

/-- Witness for C9 (amended): X's record is gone from "s2", the session
its socket had recorded. -/
theorem c9_witness : pget c9AfterSession.players "X" = none :=
  c9_disconnect_clears_current_session c9cState "X" "s2" c9AfterSession
    (by decide) (by decide)

/-! ### Claim C10 -/

/-- **C10 counterexample** — there is no retry on auto-generation
collisions: with no caller-supplied id and the single `makeSessionId()`
draw colliding with the live session "s1", `create_session` reports the
duplicate-id error instead of retrying with a new candidate, and an
error is thus possible without any caller-supplied id. -/
theorem c10_counterexample :
    handleCreateSession createdState "Z" "zoe" none "s1"
      = (createdState, [⟨["Z"],
          .errorMessage "Session ID already exists. Try joining it or use another ID."⟩]) := by
  decide

/-- **C10 (amended)** — `create_session` uses exactly one candidate id —
the trimmed caller-supplied id when truthy, else one random draw — and
treats both the same: if the candidate names a live session the handler
reports the duplicate-id error and leaves the whole state unchanged (no
retry); otherwise it registers a fresh session under the candidate with
the creator as GM and sole player. -/
theorem c10_create_single_candidate (st : ServerState) (sock rawName : String)
    (suppliedId : Option String) (genId : String) :
    (lookupSession st (resolveCreateId suppliedId genId) ≠ none →
      handleCreateSession st sock rawName suppliedId genId
        = (st, [⟨[sock],
            .errorMessage "Session ID already exists. Try joining it or use another ID."⟩])) ∧
    (lookupSession st (resolveCreateId suppliedId genId) = none →
      lookupSession (handleCreateSession st sock rawName suppliedId genId).1
          (resolveCreateId suppliedId genId)
        = some ⟨resolveCreateId suppliedId genId,
            [⟨sock, jsTake 30 (jsTrim (if rawName = "" then "Anonymous" else rawName)),
              0, 0⟩],
            sock, none, none, none, false, none, none⟩) := by
  constructor
  · intro h
    unfold handleCreateSession
    dsimp only
    cases hl : lookupSession st (resolveCreateId suppliedId genId) with
    | none => exact absurd hl h
    | some s => rfl
  · intro h
    unfold handleCreateSession
    dsimp only
    rw [h]
    dsimp only
    rw [lookupSession_eq]
    dsimp only
    rw [sessions_roomJoin, sessions_insertSession]
    exact alookup_append_self _ _ _ h

/-- Witness for C10 (amended): a caller-supplied duplicate id errors and
changes nothing; a fresh auto-generated id registers the session. -/
theorem c10_witness :
    handleCreateSession createdState "Q" "quinn" (some "s1") "zzzzzz"
      = (createdState, [⟨["Q"],
          .errorMessage "Session ID already exists. Try joining it or use another ID."⟩]) ∧
    lookupSession (handleCreateSession initState "A" "alice" none "fresh1").1 "fresh1"
      = some ⟨"fresh1", [⟨"A", "alice", 0, 0⟩], "A", none, none, none, false, none, none⟩ :=
  ⟨(c10_create_single_candidate createdState "Q" "quinn" (some "s1") "zzzzzz").1
      (by decide),
   (c10_create_single_candidate initState "A" "alice" none "fresh1").2 (by decide)⟩

/-- Witness for C1 at a concrete state: "B" guesses the correct answer
while "A" already holds the win; only B's attempt count drops. -/
theorem c1_witness :
    (handleGuess racingState "B" " PARIS ").1 = writeSession racingState "s1"
      { racingSession with players := pset racingSession.players (⟨"B", "bob", 0, 2⟩ : Player) } :=
  (c1_winner_set_guess_only_consumes_attempt racingState "s1" "B" " PARIS "
    racingSession ⟨"B", "bob", 0, 3⟩ "A" (by decide) (by decide) (by decide)
    (by decide) (by decide) (by decide) (by decide) (by decide)).1

end GuessGame
